import Mathlib

/-!
# The pacstrap action of debos (`actions/pacstrap_action.go`)

A shallow embedding of `PacstrapAction.Run` and of the parts of the Go
standard library it calls, followed by theorems about the configuration
text it writes, the external processes it starts, and what it does when a
step fails.

Modelling conventions.

* A Go `string` is a byte sequence.  It is embedded as a Lean `String`
  whose characters stand for the bytes; every literal of the source is
  ASCII.  File offsets count characters.
* A Go `error` is identified with its message (`GoError`); `nil` is `none`.
* The outside world is explicit: `FS` holds the files and directories,
  `World` adds the trace of operations performed so far, and `Env` answers,
  for every operation, whether it fails and (for an external process) what
  it does to the file system.  `Env` is a parameter of `Run`: theorems hold
  for every environment.
* `d.LogStart()` only logs and is left out.
-/

namespace Debos

/-! ## Strings, `fmt` and `path` -/

/-- A Go error value, identified with the text `Error()` returns. -/
abbrev GoError := String

/-- The operand a verb prints: operand `i`, or Go's marker for a missing one. -/
def fmtArg (verb : Char) (args : List String) (i : Nat) : String :=
  match args.get? i with
  | some a => a
  | none => "%!" ++ String.singleton verb ++ "(MISSING)"

/-- The formatting loop of `fmt.Sprintf` for string (and error) operands, restricted to
the forms this file uses: `%s`, `%v`, and `%[k]s` with a one-digit explicit
argument index `k`, after which numbering continues at `k+1`.  The third
argument is the index of the next operand. -/
def sprintfFrom : List Char → List String → Nat → String
  | '%' :: '[' :: k :: ']' :: 's' :: rest, args, _ =>
      if k.isDigit ∧ 0 < k.toNat - 48 ∧ k.toNat - 48 ≤ args.length then
        fmtArg 's' args (k.toNat - 48 - 1) ++ sprintfFrom rest args (k.toNat - 48)
      else "%!s(BADINDEX)" ++ sprintfFrom rest args 0
  | '%' :: 's' :: rest, args, i => fmtArg 's' args i ++ sprintfFrom rest args (i + 1)
  | '%' :: 'v' :: rest, args, i => fmtArg 'v' args i ++ sprintfFrom rest args (i + 1)
  | c :: rest, args, i => String.singleton c ++ sprintfFrom rest args i
  | [], _, _ => ""

/-- Go `fmt.Sprintf(format, args...)`. -/
def Sprintf (format : String) (args : List String) : String :=
  sprintfFrom format.data args 0

/-- Go `fmt.Errorf(format, args...)`: an error whose message is the formatted text. -/
def Errorf (format : String) (args : List String) : GoError :=
  Sprintf format args

/-- Split a path at every `/`. -/
def splitSlash : List Char → List (List Char)
  | [] => [[]]
  | c :: cs =>
    match splitSlash cs with
    | [] => [[]]
    | seg :: segs => if c = '/' then [] :: seg :: segs else (c :: seg) :: segs

/-- One element of the path in `path.Clean`, applied to the stack of elements kept so
far (innermost first): empty and `.` elements are dropped, `..` removes the
previous element when there is one to remove, is dropped at the root and is
kept otherwise. -/
def cleanStep (rooted : Bool) (stack : List String) (seg : String) : List String :=
  if seg = "" ∨ seg = "." then stack
  else if seg = ".." then
    match stack with
    | [] => if rooted then [] else [".."]
    | top :: below => if top = ".." then ".." :: top :: below else below
  else seg :: stack

/-- Go `path.Clean`. -/
def pathClean (p : String) : String :=
  let rooted := p.data.head? = some '/'
  let kept := ((splitSlash p.data).map String.mk).foldl (cleanStep rooted) []
  let body := "/".intercalate kept.reverse
  if rooted then "/" ++ body else if body = "" then "." else body

/-- The buffer loop of `path.Join`: leading empty elements are skipped, later elements
are appended after a `/`. -/
def joinBuf : List String → String → String
  | [], buf => buf
  | e :: es, buf =>
    if buf.length > 0 ∨ e ≠ "" then
      joinBuf es ((if buf.length > 0 then buf ++ "/" else buf) ++ e)
    else joinBuf es buf

/-- Go `path.Join(elem...)`. -/
def pathJoin (elem : List String) : String :=
  if (elem.map String.length).sum = 0 then "" else pathClean (joinBuf elem "")

/-! ## The world: files, trace and environment -/

/-- The file system: regular files with their content, and directories. -/
structure FS where
  files : String → Option String
  dirs : String → Bool

/-- Replace (or create) the file at `p`. -/
def FS.setFile (fs : FS) (p : String) (c : String) : FS :=
  { fs with files := fun q => if q = p then some c else fs.files q }

/-- Delete the file at `p`. -/
def FS.delFile (fs : FS) (p : String) : FS :=
  { fs with files := fun q => if q = p then none else fs.files q }

/-- Record the directory `p` as existing. -/
def FS.addDir (fs : FS) (p : String) : FS :=
  { fs with dirs := fun q => if q = p then true else fs.dirs q }

/-- One operation performed by the action, with its outcome (`none` is success).
An external process records its label, its command line and the file system
it starts on. -/
inductive Event where
  | openFile (name : String) (flag : Nat) (err : Option GoError)
  | writeString (name : String) (offset : Nat) (s : String) (err : Option GoError)
  | close (name : String) (err : Option GoError)
  | mkdirAll (path : String) (err : Option GoError)
  | copyFile (src dst : String) (err : Option GoError)
  | command (label : String) (cmdline : List String) (before : FS) (err : Option GoError)
  | remove (name : String) (err : Option GoError)

/-- The file system together with the operations performed so far. -/
structure World where
  fs : FS
  trace : List Event

/-- The start of a run on the file system `fs`. -/
def World.start (fs : FS) : World := { fs := fs, trace := [] }

/-- The behaviour of everything outside the action.  Each field answers for one kind
of operation, given the world at that moment: the error it reports, if any;
for a failing write also how many bytes were written before the failure;
for an external process also the file system it leaves behind. -/
structure Env where
  openFile : World → String → Option GoError
  writeString : World → String → Nat → String → Option (Nat × GoError)
  close : World → String → Option GoError
  mkdirAll : World → String → Option GoError
  copyFile : World → String → String → Option GoError
  remove : World → String → Option GoError
  command : World → String → List String → FS × Option GoError

/-- Append an event to the trace. -/
def World.log (w : World) (e : Event) : World :=
  { w with trace := w.trace ++ [e] }

/-! ## `os` -/

/-- Linux value of `os.O_RDWR`. -/
def O_RDWR : Nat := 0x2
/-- Linux value of `os.O_CREATE`. -/
def O_CREATE : Nat := 0x40
/-- Linux value of `os.O_TRUNC`. -/
def O_TRUNC : Nat := 0x200

/-- An open file: its name and the offset of the next write. -/
structure File where
  name : String
  offset : Nat

/-- The content of a file after `s` is written at `offset`: the bytes before the offset
are kept (a gap is zero-filled), `s` replaces what it covers, and whatever
the file held beyond the end of `s` stays. -/
def overwrite (old : String) (offset : Nat) (s : String) : String :=
  String.mk (old.data.take offset ++ List.replicate (offset - old.length) '\x00'
    ++ s.data ++ old.data.drop (offset + s.length))

/-- Go `os.OpenFile(name, flag, perm)`: an existing file is opened at offset 0, emptied
first only under `O_TRUNC`; a missing file is created empty under `O_CREATE`
and is an error otherwise. -/
def osOpenFile (env : Env) (name : String) (flag : Nat) (w : World) :
    World × Except GoError File :=
  match env.openFile w name with
  | some e => (w.log (.openFile name flag (some e)), .error e)
  | none =>
    match w.fs.files name with
    | some _ =>
      let fs := if flag &&& O_TRUNC ≠ 0 then w.fs.setFile name "" else w.fs
      ({ fs := fs, trace := w.trace ++ [.openFile name flag none] }, .ok ⟨name, 0⟩)
    | none =>
      if flag &&& O_CREATE ≠ 0 then
        ({ fs := w.fs.setFile name "", trace := w.trace ++ [.openFile name flag none] },
          .ok ⟨name, 0⟩)
      else
        (w.log (.openFile name flag (some "no such file or directory")),
          .error "no such file or directory")

/-- Go `(*os.File).WriteString(s)`: writes at the current offset and advances it; a
failing write may have written a prefix of `s`. -/
def File.WriteString (env : Env) (f : File) (s : String) (w : World) :
    World × File × Option GoError :=
  let old := (w.fs.files f.name).getD ""
  match env.writeString w f.name f.offset s with
  | some (n, e) =>
    let done := String.mk (s.data.take n)
    ({ fs := w.fs.setFile f.name (overwrite old f.offset done),
       trace := w.trace ++ [.writeString f.name f.offset s (some e)] },
      { f with offset := f.offset + done.length }, some e)
  | none =>
    ({ fs := w.fs.setFile f.name (overwrite old f.offset s),
       trace := w.trace ++ [.writeString f.name f.offset s none] },
      { f with offset := f.offset + s.length }, none)

/-- Go `(*os.File).Close()`. -/
def File.Close (env : Env) (f : File) (w : World) : World × Option GoError :=
  let r := env.close w f.name
  (w.log (.close f.name r), r)

/-- Go `os.MkdirAll(path, perm)`: on success the directory exists. -/
def osMkdirAll (env : Env) (path : String) (w : World) : World × Option GoError :=
  match env.mkdirAll w path with
  | some e => (w.log (.mkdirAll path (some e)), some e)
  | none => ({ fs := w.fs.addDir path, trace := w.trace ++ [.mkdirAll path none] }, none)

/-- Go `os.Remove(name)`: on success the file is gone. -/
def osRemove (env : Env) (name : String) (w : World) : World × Option GoError :=
  match env.remove w name with
  | some e => (w.log (.remove name (some e)), some e)
  | none => ({ fs := w.fs.delFile name, trace := w.trace ++ [.remove name none] }, none)

/-! ## `debos` helpers -/

/-- Modelled from the spec: `debos.CopyFile(src, dst, mode)`, defined in this
repository outside `actions/pacstrap_action.go`.  The spec: the override
file's "content is copied verbatim over the synthesized file", "fully
superseding it", and the copy fails "if the override file cannot be read or
the destination cannot be written".  A failed copy leaves the destination as
it was. -/
def CopyFile (env : Env) (src dst : String) (w : World) : World × Option GoError :=
  match env.copyFile w src dst with
  | some e => (w.log (.copyFile src dst (some e)), some e)
  | none =>
    match w.fs.files src with
    | none =>
      (w.log (.copyFile src dst (some "no such file or directory")),
        some "no such file or directory")
    | some c => ({ fs := w.fs.setFile dst c, trace := w.trace ++ [.copyFile src dst none] }, none)

/-- Modelled from the spec: `debos.Command{}.Run(label, cmdline...)`, defined in this
repository outside `actions/pacstrap_action.go`.  The spec: a
process-execution primitive that runs a command as a blocking call and
reports whether it succeeded.  What the process does to the file system and
whether it fails is the environment's answer. -/
def CommandRun (env : Env) (label : String) (cmdline : List String) (w : World) :
    World × Option GoError :=
  let r := env.command w label cmdline
  ({ fs := r.1, trace := w.trace ++ [.command label cmdline w.fs r.2] }, r.2)

/-! ## `actions/pacstrap_action.go` -/

/-- The constant `configOptionSection`. -/
def configOptionSection : String :=
  "\n[options]\nRootDir  = %[1]s\nCacheDir = %[1]s/var/cache/pacman/pkg/\nGPGDir   = %[1]s/etc/pacman.d/gnupg/\nHookDir  = %[1]s/etc/pacman.d/hooks/\nHoldPkg  = pacman glibc\nArchitecture = auto\nColor\nCheckSpace\nSigLevel = Required DatabaseOptional TrustAll\n"

/-- The constant `configRepoSection`. -/
def configRepoSection : String := "\n\n[%s]\nServer = %s\n"

/-- The type `Repository`. -/
structure Repository where
  Name : String
  Server : String

/-- The type `PacstrapAction` (the embedded `debos.BaseAction` carries no data used here). -/
structure PacstrapAction where
  Repositories : List Repository
  Packages : List String
  Config : String

/-- The fields of `debos.DebosContext` that `Run` reads. -/
structure DebosContext where
  Scratchdir : String
  Rootdir : String
  RecipeDir : String

/-- The local `configPath` of `Run`. -/
def configPath (context : DebosContext) : String :=
  pathJoin [context.Scratchdir, "pacman.conf"]

/-- The loop `for _, r := range d.Repositories` of `Run`: one `WriteString` per
repository, stopping at the first failing write. -/
def writeRepositories (env : Env) : File → List Repository → World → World × File × Option GoError
  | f, [], w => (w, f, none)
  | f, r :: rs, w =>
    match f.WriteString env (Sprintf configRepoSection [r.Name, r.Server]) w with
    | (w1, f1, some err) => (w1, f1, some (Errorf "Couldn't write to pacman config: %v" [err]))
    | (w1, f1, none) => writeRepositories env f1 rs w1

/-- The block `// Create config for pacstrap` of `Run`. -/
def writeConfig (d : PacstrapAction) (context : DebosContext) (env : Env) (w : World) :
    World × Option GoError :=
  match osOpenFile env (configPath context) (O_RDWR ||| O_CREATE) w with
  | (w1, .error err) => (w1, some (Errorf "Couldn't open pacman config: %v" [err]))
  | (w1, .ok f) =>
    match f.WriteString env (Sprintf configOptionSection [context.Rootdir]) w1 with
    | (w2, _, some err) => (w2, some (Errorf "Couldn't write pacman config: %v" [err]))
    | (w2, f2, none) =>
      match writeRepositories env f2 d.Repositories w2 with
      | (w3, _, some err) => (w3, some err)
      | (w3, f3, none) => ((f3.Close env w3).1, none)

/-- The block `// Create base layout for pacman-key` of `Run`. -/
def createLayout (context : DebosContext) (env : Env) (w : World) : World × Option GoError :=
  match osMkdirAll env (pathJoin [context.Rootdir, "var", "lib", "pacman"]) w with
  | (w1, some err) => (w1, some (Errorf "Couldn't create var/lib/pacman in image: %v" [err]))
  | (w1, none) =>
    match osMkdirAll env (pathJoin [context.Rootdir, "etc", "pacman.d", "gnupg"]) w1 with
    | (w2, some err) =>
      (w2, some (Errorf "Couldn't create etc/pacman.d/gnupg in image: %v" [err]))
    | (w2, none) => (w2, none)

/-- The block `// Copy pacman.conf file` of `Run`. -/
def copyConfig (d : PacstrapAction) (context : DebosContext) (env : Env) (w : World) :
    World × Option GoError :=
  if d.Config.length > 0 then
    match CopyFile env (pathJoin [context.RecipeDir, d.Config])
        (pathJoin [context.Scratchdir, "pacman.conf"]) w with
    | (w1, some err) => (w1, some (Errorf "Couldn't copy pacman config: %v" [err]))
    | (w1, none) => (w1, none)
  else (w, none)

/-- The block `// Run pacman-key` of `Run`. -/
def runPacmanKey (context : DebosContext) (env : Env) (w : World) : World × Option GoError :=
  match CommandRun env "Pacman-key"
      ["pacman-key", "--nocolor", "--config", configPath context, "--init"] w with
  | (w1, some err) => (w1, some (Errorf "Couldn't init pacman keyring: %v" [err]))
  | (w1, none) =>
    match CommandRun env "Pacman-key"
        ["pacman-key", "--nocolor", "--config", configPath context, "--populate"] w1 with
    | (w2, some err) => (w2, some (Errorf "Couldn't populate pacman keyring: %v" [err]))
    | (w2, none) => (w2, none)

/-- The command line of the installer: packages are appended when there are any. -/
def pacstrapCmdline (d : PacstrapAction) (context : DebosContext) : List String :=
  let cmdline := ["pacstrap", "-GM", "-C", configPath context, context.Rootdir]
  if d.Packages.length ≠ 0 then cmdline ++ d.Packages else cmdline

/-- The block `// Run pacstrap` of `Run`: on failure the installer's log is shown with
`cat`, whose own result is dropped, and the installer's error is returned. -/
def runPacstrap (d : PacstrapAction) (context : DebosContext) (env : Env) (w : World) :
    World × Option GoError :=
  match CommandRun env "Pacstrap" (pacstrapCmdline d context) w with
  | (w1, some err) =>
    let log := pathJoin [context.Rootdir, "var/log/pacman.log"]
    ((CommandRun env "pacstrap.log" ["cat", log] w1).1, some err)
  | (w1, none) => (w1, none)

/-- `PacstrapAction.Run`: the blocks in source order, each returning at its first
error; the result of the final `os.Remove` is dropped. -/
def Run (d : PacstrapAction) (context : DebosContext) (env : Env) (w : World) :
    World × Option GoError :=
  match writeConfig d context env w with
  | (w1, some err) => (w1, some err)
  | (w1, none) =>
    match createLayout context env w1 with
    | (w2, some err) => (w2, some err)
    | (w2, none) =>
      match copyConfig d context env w2 with
      | (w3, some err) => (w3, some err)
      | (w3, none) =>
        match runPacmanKey context env w3 with
        | (w4, some err) => (w4, some err)
        | (w4, none) =>
          match runPacstrap d context env w4 with
          | (w5, some err) => (w5, some err)
          | (w5, none) =>
            ((osRemove env (configPath context) w5).1, none)

/-! ## Reading a trace -/

/-- The command lines of the external processes started, in order. -/
def commandsOf (t : List Event) : List (List String) :=
  t.filterMap fun e => match e with
    | .command _ cmdline _ _ => some cmdline
    | _ => none

/-- The strings successfully written to the file `name`, in order. -/
def writesTo (name : String) (t : List Event) : List String :=
  t.filterMap fun e => match e with
    | .writeString n _ s none => if n = name then some s else none
    | _ => none

/-- The directories `os.MkdirAll` was called on, in order. -/
def mkdirsOf (t : List Event) : List String :=
  t.filterMap fun e => match e with
    | .mkdirAll p _ => some p
    | _ => none

/-- The files `os.Remove` was called on, in order. -/
def removesOf (t : List Event) : List String :=
  t.filterMap fun e => match e with
    | .remove p _ => some p
    | _ => none

/-- Opening, writing or closing a file. -/
def Event.isFileOp : Event → Bool
  | .openFile _ _ _ => true
  | .writeString _ _ _ _ => true
  | .close _ _ => true
  | _ => false

/-- The outcome recorded with an operation. -/
def Event.err : Event → Option GoError
  | .openFile _ _ r => r
  | .writeString _ _ _ r => r
  | .close _ r => r
  | .mkdirAll _ r => r
  | .copyFile _ _ r => r
  | .command _ _ _ r => r
  | .remove _ r => r

/-! ## The configuration text, as the specification words it -/

/-- The options section for target root `T`: a blank line, then the nine lines
`[options]` ... `SigLevel = Required DatabaseOptional TrustAll`. -/
def specOptionsSection (T : String) : String :=
  "\n[options]\nRootDir  = " ++ T ++ "\nCacheDir = " ++ T ++ "/var/cache/pacman/pkg/\nGPGDir   = " ++ T
    ++ "/etc/pacman.d/gnupg/\nHookDir  = " ++ T
    ++ "/etc/pacman.d/hooks/\nHoldPkg  = pacman glibc\nArchitecture = auto\nColor\nCheckSpace\nSigLevel = Required DatabaseOptional TrustAll\n"

/-- One repository section: two blank lines, the header `[name]`, the line
`Server = server`. -/
def specRepoSection (r : Repository) : String :=
  "\n\n[" ++ r.Name ++ "]\nServer = " ++ r.Server ++ "\n"

/-- The repository sections of a list, concatenated in list order. -/
def specRepoSections : List Repository → String
  | [] => ""
  | r :: rs => specRepoSection r ++ specRepoSections rs

/-- The whole synthesized text: the options section, then one section per repository
in list order. -/
def specConfigText (T : String) (R : List Repository) : String :=
  specOptionsSection T ++ specRepoSections R


/-! ## The possible courses of a run -/

/-- The copy of the override configuration, when one is given and the copy succeeds. -/
def copyEvents (d : PacstrapAction) (context : DebosContext) : List Event :=
  if d.Config.length > 0 then
    [Event.copyFile (pathJoin [context.RecipeDir, d.Config]) (configPath context) none]
  else []

/-- The two successful `os.MkdirAll` calls followed by the copy of the override, if any. -/
def layoutEvents (d : PacstrapAction) (context : DebosContext) : List Event :=
  [Event.mkdirAll (pathJoin [context.Rootdir, "var", "lib", "pacman"]) none,
   Event.mkdirAll (pathJoin [context.Rootdir, "etc", "pacman.d", "gnupg"]) none]
    ++ copyEvents d context

/-- The events of a synthesis that completed: open, the options section, one
successful write per repository, close. -/
def ConfigOk (d : PacstrapAction) (context : DebosContext) (evs : List Event) : Prop :=
  ∃ mid cl, evs =
      Event.openFile (configPath context) (O_RDWR ||| O_CREATE) none ::
      Event.writeString (configPath context) 0 (specOptionsSection context.Rootdir) none ::
      mid ++ [Event.close (configPath context) cl] ∧
    (∀ ev ∈ mid, ev.err = none ∧ ∃ off s r, ev = Event.writeString (configPath context) off s r) ∧
    writesTo (configPath context) mid = d.Repositories.map specRepoSection

/-- The events of a synthesis that failed with `x`: successful file operations, then
the failing open or write. -/
def ConfigFail (context : DebosContext) (evs : List Event) (x : GoError) : Prop :=
  ∃ e pre last, evs = pre ++ [last] ∧
    (∀ ev ∈ pre, ev.err = none ∧ ev.isFileOp = true) ∧
    ((last = Event.openFile (configPath context) (O_RDWR ||| O_CREATE) (some e) ∧ pre = [] ∧
        x = "Couldn't open pacman config: " ++ e) ∨
     ((∃ off s, last = Event.writeString (configPath context) off s (some e)) ∧
        (x = "Couldn't write pacman config: " ++ e ∨
         x = "Couldn't write to pacman config: " ++ e)))

/-- What `Run` does after the configuration is written, and the value it returns: one
case per place where it can stop. -/
inductive TailShape (d : PacstrapAction) (context : DebosContext) :
    List Event → Option GoError → Prop
  | mkdirLib (e : GoError) : TailShape d context
      [Event.mkdirAll (pathJoin [context.Rootdir, "var", "lib", "pacman"]) (some e)]
      (some ("Couldn't create var/lib/pacman in image: " ++ e))
  | mkdirGnupg (e : GoError) : TailShape d context
      [Event.mkdirAll (pathJoin [context.Rootdir, "var", "lib", "pacman"]) none,
       Event.mkdirAll (pathJoin [context.Rootdir, "etc", "pacman.d", "gnupg"]) (some e)]
      (some ("Couldn't create etc/pacman.d/gnupg in image: " ++ e))
  | copy (e : GoError) (hc : d.Config.length > 0) : TailShape d context
      [Event.mkdirAll (pathJoin [context.Rootdir, "var", "lib", "pacman"]) none,
       Event.mkdirAll (pathJoin [context.Rootdir, "etc", "pacman.d", "gnupg"]) none,
       Event.copyFile (pathJoin [context.RecipeDir, d.Config]) (configPath context) (some e)]
      (some ("Couldn't copy pacman config: " ++ e))
  | init (b : FS) (e : GoError) : TailShape d context
      (layoutEvents d context ++
        [Event.command "Pacman-key"
          ["pacman-key", "--nocolor", "--config", configPath context, "--init"] b (some e)])
      (some ("Couldn't init pacman keyring: " ++ e))
  | populate (b1 b2 : FS) (e : GoError) : TailShape d context
      (layoutEvents d context ++
        [Event.command "Pacman-key"
          ["pacman-key", "--nocolor", "--config", configPath context, "--init"] b1 none,
         Event.command "Pacman-key"
          ["pacman-key", "--nocolor", "--config", configPath context, "--populate"] b2 (some e)])
      (some ("Couldn't populate pacman keyring: " ++ e))
  | pacstrap (b1 b2 b3 b4 : FS) (e : GoError) (r : Option GoError) : TailShape d context
      (layoutEvents d context ++
        [Event.command "Pacman-key"
          ["pacman-key", "--nocolor", "--config", configPath context, "--init"] b1 none,
         Event.command "Pacman-key"
          ["pacman-key", "--nocolor", "--config", configPath context, "--populate"] b2 none,
         Event.command "Pacstrap" (pacstrapCmdline d context) b3 (some e),
         Event.command "pacstrap.log"
          ["cat", pathJoin [context.Rootdir, "var/log/pacman.log"]] b4 r])
      (some e)
  | done (b1 b2 b3 : FS) (r : Option GoError) : TailShape d context
      (layoutEvents d context ++
        [Event.command "Pacman-key"
          ["pacman-key", "--nocolor", "--config", configPath context, "--init"] b1 none,
         Event.command "Pacman-key"
          ["pacman-key", "--nocolor", "--config", configPath context, "--populate"] b2 none,
         Event.command "Pacstrap" (pacstrapCmdline d context) b3 none,
         Event.remove (configPath context) r])
      none

/-- The course of a whole run: either the synthesis failed and that is all, or it
completed and the run went on as `TailShape` says. -/
def RunShape (d : PacstrapAction) (context : DebosContext) (t : List Event)
    (result : Option GoError) : Prop :=
  (∃ x, result = some x ∧ ConfigFail context t x) ∨
  (∃ evs tail, t = evs ++ tail ∧ ConfigOk d context evs ∧ TailShape d context tail result)

/-! ## Outcomes read off a trace -/

/-- The external processes that failed: command line and error. -/
def failedCommands (t : List Event) : List (List String × GoError) :=
  t.filterMap fun e => match e with
    | .command _ cmdline _ (some err) => some (cmdline, err)
    | _ => none

/-- The command lines of the external processes that succeeded. -/
def okCommands (t : List Event) : List (List String) :=
  t.filterMap fun e => match e with
    | .command _ cmdline _ none => some cmdline
    | _ => none

/-- The failed `os.OpenFile` calls: file name and error. -/
def failedOpens (t : List Event) : List (String × GoError) :=
  t.filterMap fun e => match e with
    | .openFile name _ (some err) => some (name, err)
    | _ => none

/-- The failed `WriteString` calls: file name and error. -/
def failedWrites (t : List Event) : List (String × GoError) :=
  t.filterMap fun e => match e with
    | .writeString name _ _ (some err) => some (name, err)
    | _ => none

/-- The failed `Close` calls: file name and error. -/
def failedCloses (t : List Event) : List (String × GoError) :=
  t.filterMap fun e => match e with
    | .close name (some err) => some (name, err)
    | _ => none

/-- The failed `os.MkdirAll` calls: path and error. -/
def failedMkdirs (t : List Event) : List (String × GoError) :=
  t.filterMap fun e => match e with
    | .mkdirAll p (some err) => some (p, err)
    | _ => none

/-- The failed `debos.CopyFile` calls: source, destination and error. -/
def failedCopies (t : List Event) : List (String × String × GoError) :=
  t.filterMap fun e => match e with
    | .copyFile src dst (some err) => some (src, dst, err)
    | _ => none

/-- The successful `debos.CopyFile` calls: source and destination. -/
def okCopies (t : List Event) : List (String × String) :=
  t.filterMap fun e => match e with
    | .copyFile src dst none => some (src, dst)
    | _ => none

/-- The failed `os.Remove` calls: file name and error. -/
def failedRemoves (t : List Event) : List (String × GoError) :=
  t.filterMap fun e => match e with
    | .remove name (some err) => some (name, err)
    | _ => none

/-- What the file `p` holds at the start of each external process, in order. -/
def configSeen (p : String) (t : List Event) : List (Option String) :=
  t.filterMap fun e => match e with
    | .command _ _ before _ => some (before.files p)
    | _ => none

/-- External processes leave the file `p` as it is. -/
def Env.keepsFile (env : Env) (p : String) : Prop :=
  ∀ (w : World) (label : String) (cmdline : List String),
    (env.command w label cmdline).1.files p = w.fs.files p

/-- The world in which `Run` calls `debos.CopyFile`: after the configuration is written
and the layout created. -/
def worldAtCopy (d : PacstrapAction) (context : DebosContext) (env : Env) (fs : FS) : World :=
  (createLayout context env (writeConfig d context env (World.start fs)).1).1

/-! ## Sample inputs -/

/-- A fixed answer for each kind of operation; external processes fail according to
their command line and leave the file system alone. -/
structure Faults where
  openErr : Option GoError
  writeErr : Option GoError
  closeErr : Option GoError
  mkdirErr : Option GoError
  copyErr : Option GoError
  removeErr : Option GoError
  cmdErr : List String → Option GoError

/-- The environment that behaves as `f` says. -/
def Faults.env (f : Faults) : Env :=
  { openFile := fun _ _ => f.openErr
    writeString := fun _ _ _ _ => f.writeErr.map fun e => (0, e)
    close := fun _ _ => f.closeErr
    mkdirAll := fun _ _ => f.mkdirErr
    copyFile := fun _ _ _ => f.copyErr
    remove := fun _ _ => f.removeErr
    command := fun w _ cmdline => (w.fs, f.cmdErr cmdline) }

/-- Nothing fails. -/
def noFaults : Faults :=
  { openErr := none, writeErr := none, closeErr := none, mkdirErr := none, copyErr := none,
    removeErr := none, cmdErr := fun _ => none }

/-- The error of the first entry of `table` whose tool is the first and whose argument
is the last element of the command line. -/
def cmdFaults (table : List (String × String × GoError)) (cmdline : List String) :
    Option GoError :=
  (table.find? fun t => cmdline.head? = some t.1 ∧ cmdline.getLast? = some t.2.1).map
    fun t => t.2.2

/-- Nothing fails except the external processes listed in `table`. -/
def commandFaults (table : List (String × String × GoError)) : Faults :=
  { noFaults with cmdErr := cmdFaults table }

/-- Nothing fails except `Close`. -/
def closeFaults : Faults := { noFaults with closeErr := some "input/output error" }

/-- Nothing fails except `os.OpenFile`. -/
def openFaults : Faults := { noFaults with openErr := some "permission denied" }

/-- Nothing fails except `WriteString`. -/
def writeFaults : Faults := { noFaults with writeErr := some "no space left on device" }

/-- Nothing fails except `debos.CopyFile`. -/
def copyFaults : Faults := { noFaults with copyErr := some "permission denied" }

/-- Nothing fails except `os.Remove`. -/
def removeFaults : Faults := { noFaults with removeErr := some "operation not permitted" }

/-- An empty file system. -/
def emptyFS : FS := { files := fun _ => none, dirs := fun _ => false }

/-- The context of the examples. -/
def sampleContext : DebosContext :=
  { Scratchdir := "/scratch", Rootdir := "/scratch/root", RecipeDir := "/recipes" }

/-- The repository `core` of the specification's example. -/
def coreRepo : Repository := { Name := "core", Server := "http://mirror.example/core" }

/-- A second repository. -/
def extraRepo : Repository := { Name := "extra", Server := "http://mirror.example/extra" }

/-- The action of the specification's example: one repository, two packages, no
override. -/
def sampleAction : PacstrapAction :=
  { Repositories := [coreRepo], Packages := ["base", "linux"], Config := "" }

/-- The same action with an override configuration. -/
def overrideAction : PacstrapAction :=
  { Repositories := [coreRepo], Packages := ["base", "linux"], Config := "pacman.conf" }

/-- The same action with an override path that leads from the recipe directory to the
scratch configuration itself. -/
def aliasAction : PacstrapAction :=
  { Repositories := [coreRepo], Packages := ["base", "linux"],
    Config := "../scratch/pacman.conf" }

/-- An environment in which nothing fails and `pacman-key --init` empties the file
`/scratch/pacman.conf`. -/
def rewritingEnv : Env :=
  { noFaults.env with
    command := fun w _ cmdline =>
      if cmdline.getLast? = some "--init" then (w.fs.setFile "/scratch/pacman.conf" "", none)
      else (w.fs, none) }

/-- A file system holding the override configuration of `overrideAction`. -/
def overrideFS : FS :=
  emptyFS.setFile "/recipes/pacman.conf" "[options]\nArchitecture = x86_64\n"

/-- A file system in which an earlier run for `core` and `extra` left its configuration
behind. -/
def staleFS : FS :=
  emptyFS.setFile "/scratch/pacman.conf" (specConfigText "/scratch/root" [coreRepo, extraRepo])

/-! ## Formatting lemmas -/

set_option maxRecDepth 100000 in
theorem Sprintf_configOptionSection (T : String) :
    Sprintf configOptionSection [T] = specOptionsSection T := by
  apply String.ext
  simp [Sprintf, configOptionSection, sprintfFrom, fmtArg, specOptionsSection]

theorem Sprintf_configRepoSection (r : Repository) :
    Sprintf configRepoSection [r.Name, r.Server] = specRepoSection r := by
  apply String.ext
  simp [Sprintf, configRepoSection, sprintfFrom, fmtArg, specRepoSection]

theorem Errorf_open (e : GoError) :
    Errorf "Couldn't open pacman config: %v" [e] = "Couldn't open pacman config: " ++ e := by
  apply String.ext
  simp [Errorf, Sprintf, sprintfFrom, fmtArg]

theorem Errorf_write (e : GoError) :
    Errorf "Couldn't write pacman config: %v" [e] = "Couldn't write pacman config: " ++ e := by
  apply String.ext
  simp [Errorf, Sprintf, sprintfFrom, fmtArg]

theorem Errorf_writeTo (e : GoError) :
    Errorf "Couldn't write to pacman config: %v" [e]
      = "Couldn't write to pacman config: " ++ e := by
  apply String.ext
  simp [Errorf, Sprintf, sprintfFrom, fmtArg]

theorem Errorf_mkdirLib (e : GoError) :
    Errorf "Couldn't create var/lib/pacman in image: %v" [e]
      = "Couldn't create var/lib/pacman in image: " ++ e := by
  apply String.ext
  simp [Errorf, Sprintf, sprintfFrom, fmtArg]

theorem Errorf_mkdirGnupg (e : GoError) :
    Errorf "Couldn't create etc/pacman.d/gnupg in image: %v" [e]
      = "Couldn't create etc/pacman.d/gnupg in image: " ++ e := by
  apply String.ext
  simp [Errorf, Sprintf, sprintfFrom, fmtArg]

theorem Errorf_copy (e : GoError) :
    Errorf "Couldn't copy pacman config: %v" [e] = "Couldn't copy pacman config: " ++ e := by
  apply String.ext
  simp [Errorf, Sprintf, sprintfFrom, fmtArg]

theorem Errorf_init (e : GoError) :
    Errorf "Couldn't init pacman keyring: %v" [e] = "Couldn't init pacman keyring: " ++ e := by
  apply String.ext
  simp [Errorf, Sprintf, sprintfFrom, fmtArg]

theorem Errorf_populate (e : GoError) :
    Errorf "Couldn't populate pacman keyring: %v" [e]
      = "Couldn't populate pacman keyring: " ++ e := by
  apply String.ext
  simp [Errorf, Sprintf, sprintfFrom, fmtArg]

/-! ## Writing the configuration file -/

theorem overwrite_list (a b s : List Char) (x : Char) :
    (a ++ b.drop a.length).take a.length
        ++ List.replicate (a.length - (a ++ b.drop a.length).length) x
        ++ s ++ (a ++ b.drop a.length).drop (a.length + s.length)
      = (a ++ s) ++ b.drop (a ++ s).length := by
  have h1 : (a ++ b.drop a.length).take a.length = a := List.take_left' rfl
  have h2 : a.length - (a ++ b.drop a.length).length = 0 := by
    rw [List.length_append]; omega
  have h3 : (a ++ b.drop a.length).drop (a.length + s.length) = b.drop (a ++ s).length := by
    rw [List.drop_append, List.drop_drop, List.length_append]
  rw [h1, h2, h3]
  simp

theorem overwrite_at_end (text c0 s : String) :
    overwrite (String.mk (text.data ++ c0.data.drop text.length)) text.length s
      = String.mk ((text ++ s).data ++ c0.data.drop (text ++ s).length) := by
  apply String.ext
  exact overwrite_list text.data c0.data s.data _

theorem WriteString_name (env : Env) (f : File) (s : String) (w : World) :
    (f.WriteString env s w).2.1.name = f.name := by
  unfold File.WriteString
  cases env.writeString w f.name f.offset s <;> rfl

theorem WriteString_ok {env : Env} {f f1 : File} {s : String} {w w1 : World}
    (h : f.WriteString env s w = (w1, f1, none)) :
    w1.trace = w.trace ++ [.writeString f.name f.offset s none] ∧
    w1.fs = w.fs.setFile f.name (overwrite ((w.fs.files f.name).getD "") f.offset s) ∧
    f1 = { f with offset := f.offset + s.length } := by
  unfold File.WriteString at h
  cases hw : env.writeString w f.name f.offset s with
  | some p => rw [hw] at h; simp at h
  | none =>
    rw [hw] at h
    simp only [Prod.mk.injEq] at h
    obtain ⟨h1, h2, -⟩ := h
    subst h1; subst h2
    exact ⟨rfl, rfl, rfl⟩

theorem WriteString_fail {env : Env} {f f1 : File} {s : String} {w w1 : World} {e : GoError}
    (h : f.WriteString env s w = (w1, f1, some e)) :
    w1.trace = w.trace ++ [.writeString f.name f.offset s (some e)] ∧
    w1.fs.dirs = w.fs.dirs ∧ ∀ q, q ≠ f.name → w1.fs.files q = w.fs.files q := by
  unfold File.WriteString at h
  cases hw : env.writeString w f.name f.offset s with
  | none => rw [hw] at h; simp at h
  | some p =>
    rw [hw] at h
    simp only [Prod.mk.injEq, Option.some.injEq] at h
    obtain ⟨h1, -, h3⟩ := h
    subst h1; subst h3
    refine ⟨rfl, rfl, ?_⟩
    intro q hq
    simp [FS.setFile, hq]

/-- The events the repository loop adds are writes to the open file; they all succeed,
except the last one when the loop stops with an error. -/
theorem writeRepositories_trace (env : Env) :
    ∀ (R : List Repository) (f : File) (w : World),
    ∃ evs, (writeRepositories env f R w).1.trace = w.trace ++ evs ∧
      (∀ ev ∈ evs, ∃ off s r, ev = Event.writeString f.name off s r) ∧
      ((writeRepositories env f R w).2.2 = none →
        (∀ ev ∈ evs, ev.err = none) ∧ writesTo f.name evs = R.map specRepoSection) ∧
      (∀ x, (writeRepositories env f R w).2.2 = some x →
        ∃ e pre off s, x = "Couldn't write to pacman config: " ++ e ∧
          evs = pre ++ [Event.writeString f.name off s (some e)] ∧
          ∀ ev ∈ pre, ev.err = none) := by
  intro R
  induction R with
  | nil =>
    intro f w
    exact ⟨[], by simp [writeRepositories], by simp, by simp [writeRepositories, writesTo],
      by simp [writeRepositories]⟩
  | cons r rs ih =>
    intro f w
    rcases hws : f.WriteString env (Sprintf configRepoSection [r.Name, r.Server]) w
      with ⟨w1, f1, _ | e⟩
    · obtain ⟨ht, -, hf⟩ := WriteString_ok hws
      have hname : f1.name = f.name := by rw [hf]
      obtain ⟨evs, h1, h2, h3, h4⟩ := ih f1 w1
      rw [hname] at h2 h3 h4
      refine ⟨Event.writeString f.name f.offset
        (Sprintf configRepoSection [r.Name, r.Server]) none :: evs, ?_, ?_, ?_, ?_⟩
      · simp [writeRepositories, hws, h1, ht]
      · intro ev hev
        rcases List.mem_cons.1 hev with h | h
        · exact ⟨_, _, _, h⟩
        · exact h2 ev h
      · intro hn
        have hn1 : (writeRepositories env f1 rs w1).2.2 = none := by
          simpa [writeRepositories, hws] using hn
        obtain ⟨ha, hb⟩ := h3 hn1
        refine ⟨?_, ?_⟩
        · intro ev hev
          rcases List.mem_cons.1 hev with h | h
          · rw [h]; rfl
          · exact ha ev h
        · have : writesTo f.name (Event.writeString f.name f.offset
              (Sprintf configRepoSection [r.Name, r.Server]) none :: evs)
              = Sprintf configRepoSection [r.Name, r.Server] :: writesTo f.name evs := by
            simp [writesTo]
          rw [this, hb, Sprintf_configRepoSection]; rfl
      · intro x hx
        have hx1 : (writeRepositories env f1 rs w1).2.2 = some x := by
          simpa [writeRepositories, hws] using hx
        obtain ⟨e, pre, off, s, hx2, hevs, hpre⟩ := h4 x hx1
        refine ⟨e, Event.writeString f.name f.offset
          (Sprintf configRepoSection [r.Name, r.Server]) none :: pre, off, s, hx2, ?_, ?_⟩
        · simp [hevs]
        · intro ev hev
          rcases List.mem_cons.1 hev with h | h
          · rw [h]; rfl
          · exact hpre ev h
    · obtain ⟨ht, -, -⟩ := WriteString_fail hws
      refine ⟨[Event.writeString f.name f.offset
        (Sprintf configRepoSection [r.Name, r.Server]) (some e)], ?_, ?_, ?_, ?_⟩
      · simp [writeRepositories, hws, ht]
      · intro ev hev
        exact ⟨_, _, _, List.mem_singleton.1 hev⟩
      · intro hn
        simp [writeRepositories, hws] at hn
      · intro x hx
        refine ⟨e, [], f.offset, Sprintf configRepoSection [r.Name, r.Server], ?_, by simp, by simp⟩
        simp [writeRepositories, hws, Errorf_writeTo] at hx
        exact hx.symm

theorem writeRepositories_name (env : Env) :
    ∀ (R : List Repository) (f : File) (w : World),
      (writeRepositories env f R w).2.1.name = f.name := by
  intro R
  induction R with
  | nil => intro f w; rfl
  | cons r rs ih =>
    intro f w
    have hn := WriteString_name env f (Sprintf configRepoSection [r.Name, r.Server]) w
    rcases hws : f.WriteString env (Sprintf configRepoSection [r.Name, r.Server]) w
      with ⟨w1, f1, _ | e⟩
    · rw [hws] at hn
      simp only [writeRepositories, hws]
      rw [ih f1 w1]; exact hn
    · rw [hws] at hn
      simp only [writeRepositories, hws]
      exact hn

theorem writeRepositories_frame (env : Env) :
    ∀ (R : List Repository) (f : File) (w : World),
      (writeRepositories env f R w).1.fs.dirs = w.fs.dirs ∧
      ∀ q, q ≠ f.name → (writeRepositories env f R w).1.fs.files q = w.fs.files q := by
  intro R
  induction R with
  | nil => intro f w; simp [writeRepositories]
  | cons r rs ih =>
    intro f w
    rcases hws : f.WriteString env (Sprintf configRepoSection [r.Name, r.Server]) w
      with ⟨w1, f1, _ | e⟩
    · obtain ⟨-, hfs, hf⟩ := WriteString_ok hws
      have hname : f1.name = f.name := by rw [hf]
      obtain ⟨hd, hq⟩ := ih f1 w1
      rw [hname] at hq
      simp only [writeRepositories, hws]
      refine ⟨by rw [hd, hfs]; rfl, ?_⟩
      intro q hne
      rw [hq q hne, hfs]
      simp [FS.setFile, hne]
    · obtain ⟨-, hd, hq⟩ := WriteString_fail hws
      simp only [writeRepositories, hws]
      exact ⟨hd, hq⟩

/-- Writing from the current offset onwards: if the file holds `text` followed by what
the original content `c0` had beyond it, then after the loop it holds `text`,
the repository sections, and what `c0` had beyond those. -/
theorem writeRepositories_content (env : Env) :
    ∀ (R : List Repository) (f : File) (w : World) (text c0 : String),
      w.fs.files f.name = some (String.mk (text.data ++ c0.data.drop text.length)) →
      f.offset = text.length →
      (writeRepositories env f R w).2.2 = none →
      (writeRepositories env f R w).1.fs.files f.name
        = some (String.mk ((text ++ specRepoSections R).data
            ++ c0.data.drop (text ++ specRepoSections R).length)) := by
  intro R
  induction R with
  | nil =>
    intro f w text c0 h _ _
    simpa [writeRepositories, specRepoSections] using h
  | cons r rs ih =>
    intro f w text c0 hfile hoff hn
    rcases hws : f.WriteString env (Sprintf configRepoSection [r.Name, r.Server]) w
      with ⟨w1, f1, _ | e⟩
    · obtain ⟨-, hfs, hf⟩ := WriteString_ok hws
      have hname : f1.name = f.name := by rw [hf]
      have hn1 : (writeRepositories env f1 rs w1).2.2 = none := by
        simpa [writeRepositories, hws] using hn
      have hfile1 : w1.fs.files f1.name = some (String.mk ((text ++ specRepoSection r).data
          ++ c0.data.drop (text ++ specRepoSection r).length)) := by
        rw [hname, hfs, hfile, hoff, Sprintf_configRepoSection]
        simp only [FS.setFile, if_true, Option.getD_some]
        rw [overwrite_at_end]
      have hoff1 : f1.offset = (text ++ specRepoSection r).length := by
        rw [hf, hoff, Sprintf_configRepoSection]
        simp [String.length_append]
      have := ih f1 w1 (text ++ specRepoSection r) c0 hfile1 hoff1 hn1
      simp only [writeRepositories, hws]
      rw [hname] at this
      rw [this]
      simp only [specRepoSections, String.append_assoc]
    · simp [writeRepositories, hws] at hn

theorem osOpenFile_ok {env : Env} {name : String} {w w1 : World} {f : File}
    (h : osOpenFile env name (O_RDWR ||| O_CREATE) w = (w1, .ok f)) :
    w1.trace = w.trace ++ [.openFile name (O_RDWR ||| O_CREATE) none] ∧ f = ⟨name, 0⟩ ∧
    w1.fs.dirs = w.fs.dirs ∧ (∀ q, q ≠ name → w1.fs.files q = w.fs.files q) ∧
    w1.fs.files name = some ((w.fs.files name).getD "") := by
  unfold osOpenFile at h
  have htr : ¬ ((O_RDWR ||| O_CREATE) &&& O_TRUNC ≠ 0) := by decide
  have hcr : (O_RDWR ||| O_CREATE) &&& O_CREATE ≠ 0 := by decide
  cases ho : env.openFile w name with
  | some e => rw [ho] at h; simp [World.log] at h
  | none =>
    rw [ho] at h
    cases hfile : w.fs.files name with
    | some old =>
      rw [hfile] at h
      rw [if_neg htr] at h
      simp only [Prod.mk.injEq, Except.ok.injEq] at h
      obtain ⟨h1, h2⟩ := h
      subst h1; subst h2
      exact ⟨rfl, rfl, rfl, fun _ _ => rfl, by simp [hfile]⟩
    | none =>
      rw [hfile] at h
      rw [if_pos hcr] at h
      simp only [Prod.mk.injEq, Except.ok.injEq] at h
      obtain ⟨h1, h2⟩ := h
      subst h1; subst h2
      refine ⟨rfl, rfl, rfl, ?_, by simp [FS.setFile]⟩
      intro q hq
      simp [FS.setFile, hq]

theorem osOpenFile_fail {env : Env} {name : String} {w w1 : World} {e : GoError}
    (h : osOpenFile env name (O_RDWR ||| O_CREATE) w = (w1, .error e)) :
    w1.trace = w.trace ++ [.openFile name (O_RDWR ||| O_CREATE) (some e)] ∧ w1.fs = w.fs := by
  unfold osOpenFile at h
  have htr : ¬ ((O_RDWR ||| O_CREATE) &&& O_TRUNC ≠ 0) := by decide
  have hcr : (O_RDWR ||| O_CREATE) &&& O_CREATE ≠ 0 := by decide
  cases ho : env.openFile w name with
  | some e1 =>
    rw [ho] at h
    simp only [World.log, Prod.mk.injEq, Except.error.injEq] at h
    obtain ⟨h1, h2⟩ := h
    subst h1; subst h2
    exact ⟨rfl, rfl⟩
  | none =>
    rw [ho] at h
    cases hfile : w.fs.files name with
    | some old => rw [hfile] at h; simp at h
    | none => rw [hfile, if_pos hcr] at h; simp at h

/-- The block that writes the configuration touches no directory and no other file. -/
theorem writeConfig_frame (d : PacstrapAction) (context : DebosContext) (env : Env) (w : World) :
    (writeConfig d context env w).1.fs.dirs = w.fs.dirs ∧
    ∀ q, q ≠ configPath context → (writeConfig d context env w).1.fs.files q = w.fs.files q := by
  unfold writeConfig
  rcases ho : osOpenFile env (configPath context) (O_RDWR ||| O_CREATE) w with ⟨w1, e | f⟩
  · obtain ⟨-, hfs⟩ := osOpenFile_fail ho
    simp [hfs]
  · obtain ⟨-, hf, hd1, hq1, -⟩ := osOpenFile_ok ho
    subst hf
    dsimp only
    rcases hw : File.WriteString env ⟨configPath context, 0⟩
        (Sprintf configOptionSection [context.Rootdir]) w1 with ⟨w2, f2, _ | e⟩
    · dsimp only
      obtain ⟨-, hfs2, hf2⟩ := WriteString_ok hw
      have hname : f2.name = configPath context := by rw [hf2]
      obtain ⟨hd3, hq3⟩ := writeRepositories_frame env d.Repositories f2 w2
      rw [hname] at hq3
      have hd2 : w2.fs.dirs = w1.fs.dirs := by rw [hfs2]; rfl
      have hq2 : ∀ q, q ≠ configPath context → w2.fs.files q = w1.fs.files q := by
        intro q hq; rw [hfs2]; simp [FS.setFile, hq]
      rcases hr : writeRepositories env f2 d.Repositories w2 with ⟨w3, f3, _ | e⟩
      · rw [hr] at hd3 hq3
        dsimp only [File.Close, World.log] at hd3 hq3 ⊢
        exact ⟨by rw [hd3, hd2, hd1], fun q hq => by rw [hq3 q hq, hq2 q hq, hq1 q hq]⟩
      · rw [hr] at hd3 hq3
        dsimp only at hd3 hq3 ⊢
        exact ⟨by rw [hd3, hd2, hd1], fun q hq => by rw [hq3 q hq, hq2 q hq, hq1 q hq]⟩
    · obtain ⟨-, hd2, hq2⟩ := WriteString_fail hw
      dsimp only at hq2 ⊢
      exact ⟨by rw [hd2, hd1], fun q hq => by rw [hq2 q hq, hq1 q hq]⟩

/-- A successful synthesis: the file is opened without truncation, the options section
and then one section per repository are written, all successfully, and the
file is closed (whatever `Close` reports).  The file then holds the
synthesized text followed by whatever its previous content had beyond it. -/
theorem writeConfig_ok {d : PacstrapAction} {context : DebosContext} {env : Env} {w : World}
    (h : (writeConfig d context env w).2 = none) :
    ∃ mid cl, (writeConfig d context env w).1.trace = w.trace ++
        (Event.openFile (configPath context) (O_RDWR ||| O_CREATE) none ::
         Event.writeString (configPath context) 0 (specOptionsSection context.Rootdir) none ::
         mid ++ [Event.close (configPath context) cl]) ∧
      (∀ ev ∈ mid, ev.err = none ∧ ∃ off s r, ev = Event.writeString (configPath context) off s r) ∧
      writesTo (configPath context) mid = d.Repositories.map specRepoSection ∧
      (writeConfig d context env w).1.fs.files (configPath context)
        = some (String.mk ((specConfigText context.Rootdir d.Repositories).data
            ++ ((w.fs.files (configPath context)).getD "").data.drop
                (specConfigText context.Rootdir d.Repositories).length)) := by
  unfold writeConfig at h ⊢
  rcases ho : osOpenFile env (configPath context) (O_RDWR ||| O_CREATE) w with ⟨w1, e | f⟩
  · simp [ho] at h
  · obtain ⟨ht1, hf, -, -, hc1⟩ := osOpenFile_ok ho
    subst hf
    rw [ho] at h
    dsimp only at h ⊢
    rcases hw : File.WriteString env ⟨configPath context, 0⟩
        (Sprintf configOptionSection [context.Rootdir]) w1 with ⟨w2, f2, _ | e⟩
    · rw [hw] at h
      dsimp only at h ⊢
      obtain ⟨ht2, hfs2, hf2⟩ := WriteString_ok hw
      rw [Sprintf_configOptionSection] at ht2 hfs2 hf2
      have hname : f2.name = configPath context := by rw [hf2]
      rcases hr : writeRepositories env f2 d.Repositories w2 with ⟨w3, f3, _ | e⟩
      · obtain ⟨evs, he1, he2, he3, -⟩ := writeRepositories_trace env d.Repositories f2 w2
        rw [hname] at he2 he3
        rw [hr] at he1 he3
        replace he1 : w3.trace = w2.trace ++ evs := he1
        replace ht2 : w2.trace = w1.trace ++ [Event.writeString (configPath context) 0
            (specOptionsSection context.Rootdir) none] := ht2
        obtain ⟨he3a, he3b⟩ := he3 rfl
        have hfile2 : w2.fs.files f2.name = some (String.mk
            ((specOptionsSection context.Rootdir).data ++
              ((w.fs.files (configPath context)).getD "").data.drop
                (specOptionsSection context.Rootdir).length)) := by
          rw [hname, hfs2, hc1]
          simp only [FS.setFile, if_true, Option.getD_some]
          have := overwrite_at_end "" ((w.fs.files (configPath context)).getD "")
            (specOptionsSection context.Rootdir)
          simpa using this
        have hoff2 : f2.offset = (specOptionsSection context.Rootdir).length := by
          rw [hf2]; simp
        have hc := writeRepositories_content env d.Repositories f2 w2 _ _ hfile2 hoff2
          (by rw [hr])
        rw [hr, hname] at hc
        refine ⟨evs, env.close w3 f3.name, ?_, ?_, he3b, ?_⟩
        · have hn3 : f3.name = configPath context := by
            have := writeRepositories_name env d.Repositories f2 w2
            rw [hr, hname] at this
            exact this
          simp [File.Close, World.log, he1, ht2, ht1, hn3]
        · intro ev hev
          exact ⟨he3a ev hev, he2 ev hev⟩
        · simpa [File.Close, World.log, specConfigText] using hc
      · simp [hr] at h
    · simp [hw] at h

/-- A failed synthesis: exactly one operation failed, the last one, and it is either
the open (nothing else was done) or a write. -/
theorem writeConfig_fail {d : PacstrapAction} {context : DebosContext} {env : Env} {w : World}
    {x : GoError} (h : (writeConfig d context env w).2 = some x) :
    ∃ e pre last, (writeConfig d context env w).1.trace = w.trace ++ (pre ++ [last]) ∧
      (∀ ev ∈ pre, ev.err = none ∧ ev.isFileOp = true) ∧
      ((last = Event.openFile (configPath context) (O_RDWR ||| O_CREATE) (some e) ∧ pre = [] ∧
          x = "Couldn't open pacman config: " ++ e) ∨
       ((∃ off s, last = Event.writeString (configPath context) off s (some e)) ∧
          (x = "Couldn't write pacman config: " ++ e ∨
           x = "Couldn't write to pacman config: " ++ e))) := by
  unfold writeConfig at h ⊢
  rcases ho : osOpenFile env (configPath context) (O_RDWR ||| O_CREATE) w with ⟨w1, e | f⟩
  · obtain ⟨ht, -⟩ := osOpenFile_fail ho
    rw [ho] at h
    simp only [Option.some.injEq, Errorf_open] at h
    exact ⟨e, [], _, by simpa using ht, by simp, Or.inl ⟨rfl, rfl, h.symm⟩⟩
  · obtain ⟨ht1, hf, -, -, -⟩ := osOpenFile_ok ho
    subst hf
    rw [ho] at h
    dsimp only at h ⊢
    rcases hw : File.WriteString env ⟨configPath context, 0⟩
        (Sprintf configOptionSection [context.Rootdir]) w1 with ⟨w2, f2, _ | e⟩
    · rw [hw] at h
      dsimp only at h ⊢
      obtain ⟨ht2, -, hf2⟩ := WriteString_ok hw
      replace ht2 : w2.trace = w1.trace ++ [Event.writeString (configPath context) 0
          (Sprintf configOptionSection [context.Rootdir]) none] := ht2
      have hname : f2.name = configPath context := by rw [hf2]
      obtain ⟨evs, he1, he2, -, he4⟩ := writeRepositories_trace env d.Repositories f2 w2
      rw [hname] at he2 he4
      rcases hr : writeRepositories env f2 d.Repositories w2 with ⟨w3, f3, _ | y⟩
      · simp [hr] at h
      · rw [hr] at he1 he4 h
        replace he1 : w3.trace = w2.trace ++ evs := he1
        obtain ⟨e, pre, off, s, hy, hevs, hpre⟩ := he4 y rfl
        simp only [Option.some.injEq] at h
        subst h
        refine ⟨e, Event.openFile (configPath context) (O_RDWR ||| O_CREATE) none ::
          Event.writeString (configPath context) 0
            (Sprintf configOptionSection [context.Rootdir]) none :: pre,
          Event.writeString (configPath context) off s (some e), ?_, ?_,
          Or.inr ⟨⟨off, s, rfl⟩, Or.inr hy⟩⟩
        · simp [he1, ht2, ht1, hevs]
        · intro ev hev
          simp only [List.mem_cons] at hev
          rcases hev with h | h | h
          · subst h; exact ⟨rfl, rfl⟩
          · subst h; exact ⟨rfl, rfl⟩
          · refine ⟨hpre ev h, ?_⟩
            have hmem : ev ∈ evs := by rw [hevs]; simp [h]
            obtain ⟨o1, s1, r1, rfl⟩ := he2 ev hmem
            rfl
    · rw [hw] at h
      obtain ⟨ht2, -, -⟩ := WriteString_fail hw
      replace ht2 : w2.trace = w1.trace ++ [Event.writeString (configPath context) 0
          (Sprintf configOptionSection [context.Rootdir]) (some e)] := ht2
      simp only [Option.some.injEq, Errorf_write] at h
      dsimp only
      refine ⟨e, [Event.openFile (configPath context) (O_RDWR ||| O_CREATE) none],
        Event.writeString (configPath context) 0
          (Sprintf configOptionSection [context.Rootdir]) (some e), ?_, ?_,
        Or.inr ⟨⟨_, _, rfl⟩, Or.inl h.symm⟩⟩
      · simp [ht2, ht1]
      · intro ev hev
        rw [List.mem_singleton.1 hev]
        exact ⟨rfl, rfl⟩

/-! ## The later blocks of `Run` -/

theorem createLayout_ok {context : DebosContext} {env : Env} {w w2 : World}
    (h : createLayout context env w = (w2, none)) :
    w2.trace = w.trace ++
      [Event.mkdirAll (pathJoin [context.Rootdir, "var", "lib", "pacman"]) none,
       Event.mkdirAll (pathJoin [context.Rootdir, "etc", "pacman.d", "gnupg"]) none] ∧
    w2.fs.files = w.fs.files ∧
    w2.fs.dirs (pathJoin [context.Rootdir, "var", "lib", "pacman"]) = true ∧
    w2.fs.dirs (pathJoin [context.Rootdir, "etc", "pacman.d", "gnupg"]) = true := by
  unfold createLayout osMkdirAll at h
  cases h1 : env.mkdirAll w (pathJoin [context.Rootdir, "var", "lib", "pacman"]) with
  | some e => simp [h1] at h
  | none =>
    simp only [h1] at h
    split at h
    · simp at h
    · rename_i w1 heq
      split at heq
      · simp at heq
      · simp only [Prod.mk.injEq, and_true] at heq h
        subst heq; subst h
        refine ⟨by simp, rfl, ?_, ?_⟩
        · simp only [FS.addDir]
          split <;> simp
        · simp [FS.addDir]

theorem createLayout_fail {context : DebosContext} {env : Env} {w w2 : World} {x : GoError}
    (h : createLayout context env w = (w2, some x)) :
    w2.fs.files = w.fs.files ∧ ∃ e,
      (w2.trace = w.trace ++
          [Event.mkdirAll (pathJoin [context.Rootdir, "var", "lib", "pacman"]) (some e)] ∧
        x = "Couldn't create var/lib/pacman in image: " ++ e) ∨
      (w2.trace = w.trace ++
          [Event.mkdirAll (pathJoin [context.Rootdir, "var", "lib", "pacman"]) none,
           Event.mkdirAll (pathJoin [context.Rootdir, "etc", "pacman.d", "gnupg"]) (some e)] ∧
        x = "Couldn't create etc/pacman.d/gnupg in image: " ++ e) := by
  unfold createLayout osMkdirAll at h
  cases h1 : env.mkdirAll w (pathJoin [context.Rootdir, "var", "lib", "pacman"]) with
  | some e =>
    simp only [h1, World.log, Prod.mk.injEq, Option.some.injEq, Errorf_mkdirLib] at h
    obtain ⟨hw, hx⟩ := h
    subst hw
    exact ⟨rfl, e, Or.inl ⟨rfl, hx.symm⟩⟩
  | none =>
    simp only [h1] at h
    split at h
    · rename_i w1 e heq
      split at heq
      · simp only [World.log, Prod.mk.injEq, Option.some.injEq, Errorf_mkdirGnupg] at heq h
        obtain ⟨hw, he⟩ := heq
        obtain ⟨hw2, hx⟩ := h
        subst hw; subst hw2; subst he
        exact ⟨rfl, _, Or.inr ⟨by simp, hx.symm⟩⟩
      · simp at heq
    · simp at h

theorem copyConfig_ok {d : PacstrapAction} {context : DebosContext} {env : Env} {w w3 : World}
    (h : copyConfig d context env w = (w3, none)) :
    (d.Config.length = 0 ∧ w3 = w) ∨
    (d.Config.length > 0 ∧ ∃ c, w.fs.files (pathJoin [context.RecipeDir, d.Config]) = some c ∧
      w3.fs = w.fs.setFile (configPath context) c ∧
      w3.trace = w.trace ++
        [Event.copyFile (pathJoin [context.RecipeDir, d.Config]) (configPath context) none]) := by
  unfold copyConfig CopyFile at h
  by_cases hc : d.Config.length > 0
  · rw [if_pos hc] at h
    right
    refine ⟨hc, ?_⟩
    cases h1 : env.copyFile w (pathJoin [context.RecipeDir, d.Config])
        (pathJoin [context.Scratchdir, "pacman.conf"]) with
    | some e => simp [h1] at h
    | none =>
      simp only [h1] at h
      cases h2 : w.fs.files (pathJoin [context.RecipeDir, d.Config]) with
      | none => simp [h2] at h
      | some c =>
        simp only [h2, Prod.mk.injEq, and_true] at h
        subst h
        exact ⟨c, rfl, rfl, rfl⟩
  · rw [if_neg hc] at h
    left
    simp only [Prod.mk.injEq, and_true] at h
    exact ⟨by omega, h.symm⟩

theorem copyConfig_fail {d : PacstrapAction} {context : DebosContext} {env : Env} {w w3 : World}
    {x : GoError} (h : copyConfig d context env w = (w3, some x)) :
    d.Config.length > 0 ∧ w3.fs = w.fs ∧ ∃ e,
      w3.trace = w.trace ++
        [Event.copyFile (pathJoin [context.RecipeDir, d.Config]) (configPath context) (some e)] ∧
      x = "Couldn't copy pacman config: " ++ e := by
  unfold copyConfig CopyFile at h
  by_cases hc : d.Config.length > 0
  · rw [if_pos hc] at h
    refine ⟨hc, ?_⟩
    cases h1 : env.copyFile w (pathJoin [context.RecipeDir, d.Config])
        (pathJoin [context.Scratchdir, "pacman.conf"]) with
    | some e =>
      simp only [h1, World.log, Prod.mk.injEq, Option.some.injEq, Errorf_copy] at h
      obtain ⟨hw, hx⟩ := h
      subst hw
      exact ⟨rfl, e, rfl, hx.symm⟩
    | none =>
      simp only [h1] at h
      cases h2 : w.fs.files (pathJoin [context.RecipeDir, d.Config]) with
      | none =>
        simp only [h2, World.log, Prod.mk.injEq, Option.some.injEq, Errorf_copy] at h
        obtain ⟨hw, hx⟩ := h
        subst hw
        exact ⟨rfl, _, rfl, hx.symm⟩
      | some c => simp [h2] at h
  · rw [if_neg hc] at h
    simp at h

theorem CommandRun_spec (env : Env) (label : String) (cmdline : List String) (w : World) :
    (CommandRun env label cmdline w).1.trace
      = w.trace ++ [Event.command label cmdline w.fs (CommandRun env label cmdline w).2] ∧
    (CommandRun env label cmdline w).1.fs = (env.command w label cmdline).1 :=
  ⟨rfl, rfl⟩

theorem runPacmanKey_ok {context : DebosContext} {env : Env} {w w4 : World}
    (h : runPacmanKey context env w = (w4, none)) :
    ∃ wa : World,
      wa.fs = (env.command w "Pacman-key"
        ["pacman-key", "--nocolor", "--config", configPath context, "--init"]).1 ∧
      w4.fs = (env.command wa "Pacman-key"
        ["pacman-key", "--nocolor", "--config", configPath context, "--populate"]).1 ∧
      w4.trace = w.trace ++
        [Event.command "Pacman-key"
          ["pacman-key", "--nocolor", "--config", configPath context, "--init"] w.fs none,
         Event.command "Pacman-key"
          ["pacman-key", "--nocolor", "--config", configPath context, "--populate"]
          wa.fs none] := by
  unfold runPacmanKey at h
  obtain ⟨ht1, hf1⟩ := CommandRun_spec env "Pacman-key"
    ["pacman-key", "--nocolor", "--config", configPath context, "--init"] w
  rcases h1 : CommandRun env "Pacman-key"
    ["pacman-key", "--nocolor", "--config", configPath context, "--init"] w with ⟨w1, _ | e⟩
  · rw [h1] at h ht1 hf1
    dsimp only at h ht1 hf1
    obtain ⟨ht2, hf2⟩ := CommandRun_spec env "Pacman-key"
      ["pacman-key", "--nocolor", "--config", configPath context, "--populate"] w1
    rcases h2 : CommandRun env "Pacman-key"
      ["pacman-key", "--nocolor", "--config", configPath context, "--populate"] w1
      with ⟨w2, _ | e⟩
    · rw [h2] at h ht2 hf2
      dsimp only at h ht2 hf2
      simp only [Prod.mk.injEq, and_true] at h
      subst h
      exact ⟨w1, hf1, hf2, by rw [ht2, ht1]; simp⟩
    · rw [h2] at h
      simp at h
  · rw [h1] at h
    simp at h

theorem runPacmanKey_fail {context : DebosContext} {env : Env} {w w4 : World} {x : GoError}
    (h : runPacmanKey context env w = (w4, some x)) :
    ∃ e, (w4.trace = w.trace ++
            [Event.command "Pacman-key"
              ["pacman-key", "--nocolor", "--config", configPath context, "--init"] w.fs
              (some e)] ∧
          x = "Couldn't init pacman keyring: " ++ e ∧
          w4.fs = (env.command w "Pacman-key"
            ["pacman-key", "--nocolor", "--config", configPath context, "--init"]).1) ∨
         (∃ wa : World, w4.trace = w.trace ++
            [Event.command "Pacman-key"
              ["pacman-key", "--nocolor", "--config", configPath context, "--init"] w.fs none,
             Event.command "Pacman-key"
              ["pacman-key", "--nocolor", "--config", configPath context, "--populate"] wa.fs
              (some e)] ∧
          x = "Couldn't populate pacman keyring: " ++ e ∧
          wa.fs = (env.command w "Pacman-key"
            ["pacman-key", "--nocolor", "--config", configPath context, "--init"]).1 ∧
          w4.fs = (env.command wa "Pacman-key"
            ["pacman-key", "--nocolor", "--config", configPath context, "--populate"]).1) := by
  unfold runPacmanKey at h
  obtain ⟨ht1, hf1⟩ := CommandRun_spec env "Pacman-key"
    ["pacman-key", "--nocolor", "--config", configPath context, "--init"] w
  rcases h1 : CommandRun env "Pacman-key"
    ["pacman-key", "--nocolor", "--config", configPath context, "--init"] w with ⟨w1, _ | e⟩
  · rw [h1] at h ht1 hf1
    dsimp only at h ht1 hf1
    obtain ⟨ht2, hf2⟩ := CommandRun_spec env "Pacman-key"
      ["pacman-key", "--nocolor", "--config", configPath context, "--populate"] w1
    rcases h2 : CommandRun env "Pacman-key"
      ["pacman-key", "--nocolor", "--config", configPath context, "--populate"] w1
      with ⟨w2, _ | e⟩
    · rw [h2] at h
      simp at h
    · rw [h2] at h ht2 hf2
      dsimp only at h ht2 hf2
      simp only [Prod.mk.injEq, Option.some.injEq, Errorf_populate] at h
      obtain ⟨hw, hx⟩ := h
      subst hw
      exact ⟨e, Or.inr ⟨w1, by rw [ht2, ht1]; simp, hx.symm, hf1, hf2⟩⟩
  · rw [h1] at h ht1 hf1
    dsimp only at h ht1 hf1
    simp only [Prod.mk.injEq, Option.some.injEq, Errorf_init] at h
    obtain ⟨hw, hx⟩ := h
    subst hw
    exact ⟨e, Or.inl ⟨ht1, hx.symm, hf1⟩⟩

theorem runPacstrap_ok {d : PacstrapAction} {context : DebosContext} {env : Env} {w w5 : World}
    (h : runPacstrap d context env w = (w5, none)) :
    w5.fs = (env.command w "Pacstrap" (pacstrapCmdline d context)).1 ∧
    w5.trace = w.trace ++
      [Event.command "Pacstrap" (pacstrapCmdline d context) w.fs none] := by
  unfold runPacstrap at h
  obtain ⟨ht1, hf1⟩ := CommandRun_spec env "Pacstrap" (pacstrapCmdline d context) w
  rcases h1 : CommandRun env "Pacstrap" (pacstrapCmdline d context) w with ⟨w1, _ | e⟩
  · rw [h1] at h ht1 hf1
    dsimp only at h ht1 hf1
    simp only [Prod.mk.injEq, and_true] at h
    subst h
    exact ⟨hf1, ht1⟩
  · rw [h1] at h
    simp at h

theorem runPacstrap_fail {d : PacstrapAction} {context : DebosContext} {env : Env}
    {w w5 : World} {x : GoError} (h : runPacstrap d context env w = (w5, some x)) :
    ∃ (wb : World) (r : Option GoError), w5.trace = w.trace ++
      [Event.command "Pacstrap" (pacstrapCmdline d context) w.fs (some x),
       Event.command "pacstrap.log" ["cat", pathJoin [context.Rootdir, "var/log/pacman.log"]]
        wb.fs r] ∧
      wb.fs = (env.command w "Pacstrap" (pacstrapCmdline d context)).1 ∧
      w5.fs = (env.command wb "pacstrap.log"
        ["cat", pathJoin [context.Rootdir, "var/log/pacman.log"]]).1 := by
  unfold runPacstrap at h
  obtain ⟨ht1, hf1⟩ := CommandRun_spec env "Pacstrap" (pacstrapCmdline d context) w
  rcases h1 : CommandRun env "Pacstrap" (pacstrapCmdline d context) w with ⟨w1, _ | e⟩
  · rw [h1] at h
    simp at h
  · rw [h1] at h ht1 hf1
    dsimp only at h ht1 hf1
    obtain ⟨ht2, hf2⟩ := CommandRun_spec env "pacstrap.log"
      ["cat", pathJoin [context.Rootdir, "var/log/pacman.log"]] w1
    simp only [Prod.mk.injEq, Option.some.injEq] at h
    obtain ⟨hw, hx⟩ := h
    subst hw; subst hx
    exact ⟨w1, (CommandRun env "pacstrap.log"
      ["cat", pathJoin [context.Rootdir, "var/log/pacman.log"]] w1).2,
      by rw [ht2, ht1]; simp, hf1, hf2⟩

theorem osRemove_spec (env : Env) (name : String) (w : World) :
    (osRemove env name w).1.trace = w.trace ++ [Event.remove name (env.remove w name)] ∧
    (env.remove w name = none → (osRemove env name w).1.fs.files name = none) ∧
    (env.remove w name ≠ none → (osRemove env name w).1.fs = w.fs) := by
  unfold osRemove
  cases h : env.remove w name with
  | some e => simp [World.log]
  | none => simp [FS.delFile]

/-! ## The run as a whole -/

/-- Case analysis on where `Run` stops. -/
theorem Run_cases (d : PacstrapAction) (context : DebosContext) (env : Env) (w : World)
    (P : World × Option GoError → Prop)
    (h1 : ∀ w1 x, writeConfig d context env w = (w1, some x) → P (w1, some x))
    (h2 : ∀ w1 w2 x, writeConfig d context env w = (w1, none) →
      createLayout context env w1 = (w2, some x) → P (w2, some x))
    (h3 : ∀ w1 w2 w3 x, writeConfig d context env w = (w1, none) →
      createLayout context env w1 = (w2, none) →
      copyConfig d context env w2 = (w3, some x) → P (w3, some x))
    (h4 : ∀ w1 w2 w3 w4 x, writeConfig d context env w = (w1, none) →
      createLayout context env w1 = (w2, none) →
      copyConfig d context env w2 = (w3, none) →
      runPacmanKey context env w3 = (w4, some x) → P (w4, some x))
    (h5 : ∀ w1 w2 w3 w4 w5 x, writeConfig d context env w = (w1, none) →
      createLayout context env w1 = (w2, none) →
      copyConfig d context env w2 = (w3, none) →
      runPacmanKey context env w3 = (w4, none) →
      runPacstrap d context env w4 = (w5, some x) → P (w5, some x))
    (h6 : ∀ w1 w2 w3 w4 w5, writeConfig d context env w = (w1, none) →
      createLayout context env w1 = (w2, none) →
      copyConfig d context env w2 = (w3, none) →
      runPacmanKey context env w3 = (w4, none) →
      runPacstrap d context env w4 = (w5, none) →
      P ((osRemove env (configPath context) w5).1, none)) :
    P (Run d context env w) := by
  unfold Run
  rcases e1 : writeConfig d context env w with ⟨w1, _ | x⟩
  · dsimp only
    rcases e2 : createLayout context env w1 with ⟨w2, _ | x⟩
    · dsimp only
      rcases e3 : copyConfig d context env w2 with ⟨w3, _ | x⟩
      · dsimp only
        rcases e4 : runPacmanKey context env w3 with ⟨w4, _ | x⟩
        · dsimp only
          rcases e5 : runPacstrap d context env w4 with ⟨w5, _ | x⟩
          · exact h6 w1 w2 w3 w4 w5 e1 e2 e3 e4 e5
          · exact h5 w1 w2 w3 w4 w5 x e1 e2 e3 e4 e5
        · exact h4 w1 w2 w3 w4 x e1 e2 e3 e4
      · exact h3 w1 w2 w3 x e1 e2 e3
    · exact h2 w1 w2 x e1 e2
  · exact h1 w1 x e1

theorem writeConfig_start_ok {d : PacstrapAction} {context : DebosContext} {env : Env}
    {fs : FS} {w1 : World} (h : writeConfig d context env (World.start fs) = (w1, none)) :
    ConfigOk d context w1.trace := by
  obtain ⟨mid, cl, ht, hmid, hw, -⟩ :=
    @writeConfig_ok d context env (World.start fs) (by rw [h])
  rw [h] at ht
  exact ⟨mid, cl, by simpa [World.start] using ht, hmid, hw⟩

theorem copyConfig_trace {d : PacstrapAction} {context : DebosContext} {env : Env}
    {w w3 : World} (h : copyConfig d context env w = (w3, none)) :
    w3.trace = w.trace ++ copyEvents d context := by
  rcases copyConfig_ok h with ⟨hc, rfl⟩ | ⟨hc, c, -, -, ht⟩
  · simp [copyEvents, hc]
  · simp [copyEvents, hc, ht]

/-- Case analysis on where `Run` stops, with the trace of each case. -/
theorem Run_courses (d : PacstrapAction) (context : DebosContext) (env : Env) (fs : FS)
    (P : World × Option GoError → Prop)
    (h1 : ∀ w1 x, writeConfig d context env (World.start fs) = (w1, some x) →
      ConfigFail context w1.trace x → P (w1, some x))
    (h2 : ∀ w1 w2 x tail, writeConfig d context env (World.start fs) = (w1, none) →
      createLayout context env w1 = (w2, some x) →
      ConfigOk d context w1.trace → w2.trace = w1.trace ++ tail →
      ((∃ e, tail =
          [Event.mkdirAll (pathJoin [context.Rootdir, "var", "lib", "pacman"]) (some e)] ∧
          x = "Couldn't create var/lib/pacman in image: " ++ e) ∨
       (∃ e, tail =
          [Event.mkdirAll (pathJoin [context.Rootdir, "var", "lib", "pacman"]) none,
           Event.mkdirAll (pathJoin [context.Rootdir, "etc", "pacman.d", "gnupg"]) (some e)] ∧
          x = "Couldn't create etc/pacman.d/gnupg in image: " ++ e)) →
      P (w2, some x))
    (h3 : ∀ w1 w2 w3 e, writeConfig d context env (World.start fs) = (w1, none) →
      createLayout context env w1 = (w2, none) →
      copyConfig d context env w2 = (w3, some ("Couldn't copy pacman config: " ++ e)) →
      ConfigOk d context w1.trace →
      w3.trace = w1.trace ++
        [Event.mkdirAll (pathJoin [context.Rootdir, "var", "lib", "pacman"]) none,
         Event.mkdirAll (pathJoin [context.Rootdir, "etc", "pacman.d", "gnupg"]) none,
         Event.copyFile (pathJoin [context.RecipeDir, d.Config]) (configPath context)
          (some e)] →
      d.Config.length > 0 → P (w3, some ("Couldn't copy pacman config: " ++ e)))
    (h4 : ∀ w1 w2 w3 w4 x tail, writeConfig d context env (World.start fs) = (w1, none) →
      createLayout context env w1 = (w2, none) →
      copyConfig d context env w2 = (w3, none) →
      runPacmanKey context env w3 = (w4, some x) →
      ConfigOk d context w1.trace → w4.trace = w1.trace ++ tail →
      ((∃ e, tail = layoutEvents d context ++
          [Event.command "Pacman-key"
            ["pacman-key", "--nocolor", "--config", configPath context, "--init"] w3.fs
            (some e)] ∧ x = "Couldn't init pacman keyring: " ++ e) ∨
       (∃ e, ∃ wa : World, tail = layoutEvents d context ++
          [Event.command "Pacman-key"
            ["pacman-key", "--nocolor", "--config", configPath context, "--init"] w3.fs none,
           Event.command "Pacman-key"
            ["pacman-key", "--nocolor", "--config", configPath context, "--populate"] wa.fs
            (some e)] ∧ x = "Couldn't populate pacman keyring: " ++ e ∧
          wa.fs = (env.command w3 "Pacman-key"
            ["pacman-key", "--nocolor", "--config", configPath context, "--init"]).1)) →
      P (w4, some x))
    (h5 : ∀ (w1 w2 w3 w4 w5 : World) (x : GoError) (wa wb : World) (r : Option GoError),
      writeConfig d context env (World.start fs) = (w1, none) →
      createLayout context env w1 = (w2, none) →
      copyConfig d context env w2 = (w3, none) →
      runPacmanKey context env w3 = (w4, none) →
      runPacstrap d context env w4 = (w5, some x) →
      ConfigOk d context w1.trace →
      w5.trace = w1.trace ++ (layoutEvents d context ++
        [Event.command "Pacman-key"
          ["pacman-key", "--nocolor", "--config", configPath context, "--init"] w3.fs none,
         Event.command "Pacman-key"
          ["pacman-key", "--nocolor", "--config", configPath context, "--populate"] wa.fs none,
         Event.command "Pacstrap" (pacstrapCmdline d context) w4.fs (some x),
         Event.command "pacstrap.log"
          ["cat", pathJoin [context.Rootdir, "var/log/pacman.log"]] wb.fs r]) →
      wa.fs = (env.command w3 "Pacman-key"
        ["pacman-key", "--nocolor", "--config", configPath context, "--init"]).1 →
      w4.fs = (env.command wa "Pacman-key"
        ["pacman-key", "--nocolor", "--config", configPath context, "--populate"]).1 →
      wb.fs = (env.command w4 "Pacstrap" (pacstrapCmdline d context)).1 →
      w5.fs = (env.command wb "pacstrap.log"
        ["cat", pathJoin [context.Rootdir, "var/log/pacman.log"]]).1 →
      P (w5, some x))
    (h6 : ∀ (w1 w2 w3 w4 w5 wa : World),
      writeConfig d context env (World.start fs) = (w1, none) →
      createLayout context env w1 = (w2, none) →
      copyConfig d context env w2 = (w3, none) →
      runPacmanKey context env w3 = (w4, none) →
      runPacstrap d context env w4 = (w5, none) →
      ConfigOk d context w1.trace →
      (osRemove env (configPath context) w5).1.trace = w1.trace ++ (layoutEvents d context ++
        [Event.command "Pacman-key"
          ["pacman-key", "--nocolor", "--config", configPath context, "--init"] w3.fs none,
         Event.command "Pacman-key"
          ["pacman-key", "--nocolor", "--config", configPath context, "--populate"] wa.fs none,
         Event.command "Pacstrap" (pacstrapCmdline d context) w4.fs none,
         Event.remove (configPath context) (env.remove w5 (configPath context))]) →
      wa.fs = (env.command w3 "Pacman-key"
        ["pacman-key", "--nocolor", "--config", configPath context, "--init"]).1 →
      w4.fs = (env.command wa "Pacman-key"
        ["pacman-key", "--nocolor", "--config", configPath context, "--populate"]).1 →
      w5.fs = (env.command w4 "Pacstrap" (pacstrapCmdline d context)).1 →
      P ((osRemove env (configPath context) w5).1, none)) :
    P (Run d context env (World.start fs)) := by
  apply Run_cases d context env (World.start fs) P
  · intro w1 x e1
    apply h1 w1 x e1
    obtain ⟨e, pre, last, ht, hpre, hlast⟩ :=
      @writeConfig_fail d context env (World.start fs) x (by rw [e1])
    rw [e1] at ht
    exact ⟨e, pre, last, by simpa [World.start] using ht, hpre, hlast⟩
  · intro w1 w2 x e1 e2
    obtain ⟨-, e, ⟨ht, hx⟩ | ⟨ht, hx⟩⟩ := createLayout_fail e2
    · exact h2 w1 w2 x _ e1 e2 (writeConfig_start_ok e1) ht (Or.inl ⟨e, rfl, hx⟩)
    · exact h2 w1 w2 x _ e1 e2 (writeConfig_start_ok e1) ht (Or.inr ⟨e, rfl, hx⟩)
  · intro w1 w2 w3 x e1 e2 e3
    obtain ⟨ht2, -⟩ := createLayout_ok e2
    obtain ⟨hc, -, e, ht3, hx⟩ := copyConfig_fail e3
    subst hx
    exact h3 w1 w2 w3 e e1 e2 e3 (writeConfig_start_ok e1) (by rw [ht3, ht2]; simp) hc
  · intro w1 w2 w3 w4 x e1 e2 e3 e4
    obtain ⟨ht2, -⟩ := createLayout_ok e2
    have ht3 := copyConfig_trace e3
    obtain ⟨e, ⟨ht, hx, -⟩ | ⟨wa, ht, hx, hwa, -⟩⟩ := runPacmanKey_fail e4
    · exact h4 w1 w2 w3 w4 x _ e1 e2 e3 e4 (writeConfig_start_ok e1)
        (by rw [ht, ht3, ht2]; simp [layoutEvents]) (Or.inl ⟨e, rfl, hx⟩)
    · exact h4 w1 w2 w3 w4 x _ e1 e2 e3 e4 (writeConfig_start_ok e1)
        (by rw [ht, ht3, ht2]; simp [layoutEvents]) (Or.inr ⟨e, wa, rfl, hx, hwa⟩)
  · intro w1 w2 w3 w4 w5 x e1 e2 e3 e4 e5
    obtain ⟨ht2, -⟩ := createLayout_ok e2
    have ht3 := copyConfig_trace e3
    obtain ⟨wa, hwa, hw4, ht4⟩ := runPacmanKey_ok e4
    obtain ⟨wb, r, ht5, hwb, hw5⟩ := runPacstrap_fail e5
    exact h5 w1 w2 w3 w4 w5 x wa wb r e1 e2 e3 e4 e5 (writeConfig_start_ok e1)
      (by rw [ht5, ht4, ht3, ht2]; simp [layoutEvents]) hwa hw4 hwb hw5
  · intro w1 w2 w3 w4 w5 e1 e2 e3 e4 e5
    obtain ⟨ht2, -⟩ := createLayout_ok e2
    have ht3 := copyConfig_trace e3
    obtain ⟨wa, hwa, hw4, ht4⟩ := runPacmanKey_ok e4
    obtain ⟨hw5, ht5⟩ := runPacstrap_ok e5
    obtain ⟨ht6, -⟩ := osRemove_spec env (configPath context) w5
    exact h6 w1 w2 w3 w4 w5 wa e1 e2 e3 e4 e5 (writeConfig_start_ok e1)
      (by rw [ht6, ht5, ht4, ht3, ht2]; simp [layoutEvents]) hwa hw4 hw5

/-- Every run has one of the shapes of `RunShape`. -/
theorem Run_shape (d : PacstrapAction) (context : DebosContext) (env : Env) (fs : FS) :
    RunShape d context (Run d context env (World.start fs)).1.trace
      (Run d context env (World.start fs)).2 := by
  apply Run_courses d context env fs (fun r => RunShape d context r.1.trace r.2)
  · intro w1 x _ hf
    exact Or.inl ⟨x, rfl, hf⟩
  · intro w1 w2 x tail _ _ hok ht hs
    rcases hs with ⟨e, rfl, rfl⟩ | ⟨e, rfl, rfl⟩
    · exact Or.inr ⟨w1.trace, _, ht, hok, TailShape.mkdirLib e⟩
    · exact Or.inr ⟨w1.trace, _, ht, hok, TailShape.mkdirGnupg e⟩
  · intro w1 w2 w3 e _ _ _ hok ht hc
    exact Or.inr ⟨w1.trace, _, ht, hok, TailShape.copy e hc⟩
  · intro w1 w2 w3 w4 x tail _ _ _ _ hok ht hs
    rcases hs with ⟨e, rfl, rfl⟩ | ⟨e, wa, rfl, rfl, -⟩
    · exact Or.inr ⟨w1.trace, _, ht, hok, TailShape.init _ e⟩
    · exact Or.inr ⟨w1.trace, _, ht, hok, TailShape.populate _ wa.fs e⟩
  · intro w1 w2 w3 w4 w5 x wa wb r _ _ _ _ _ hok ht _ _ _ _
    exact Or.inr ⟨w1.trace, _, ht, hok, TailShape.pacstrap _ wa.fs _ wb.fs x r⟩
  · intro w1 w2 w3 w4 w5 wa _ _ _ _ _ hok ht _ _ _
    exact Or.inr ⟨w1.trace, _, ht, hok, TailShape.done _ wa.fs _ _⟩

/-! ## Reading the trace of a run -/

theorem ConfigOk.fileOp {d : PacstrapAction} {context : DebosContext} {evs : List Event}
    (h : ConfigOk d context evs) : ∀ ev ∈ evs, ev.isFileOp = true := by
  obtain ⟨mid, cl, rfl, hmid, -⟩ := h
  intro ev hev
  simp only [List.mem_cons, List.mem_append, List.not_mem_nil, or_false] at hev
  rcases hev with (h | h | h) | h
  · subst h; rfl
  · subst h; rfl
  · obtain ⟨-, off, s, r, rfl⟩ := hmid ev h
    rfl
  · subst h; rfl

theorem ConfigFail.onlyFileOp {context : DebosContext} {evs : List Event} {x : GoError}
    (h : ConfigFail context evs x) : ∀ ev ∈ evs, ev.isFileOp = true := by
  obtain ⟨e, pre, last, rfl, hpre, hlast⟩ := h
  intro ev hev
  simp only [List.mem_append, List.mem_singleton] at hev
  rcases hev with h | h
  · exact (hpre ev h).2
  · subst h
    rcases hlast with ⟨rfl, -, -⟩ | ⟨⟨off, s, rfl⟩, -⟩ <;> rfl

theorem commandsOf_fileOp {evs : List Event} (h : ∀ ev ∈ evs, ev.isFileOp = true) :
    commandsOf evs = [] := by
  induction evs with
  | nil => rfl
  | cons ev evs ih =>
    have h1 := h ev (List.mem_cons_self _ _)
    have h2 := ih (fun e he => h e (List.mem_cons_of_mem _ he))
    cases ev <;> simp_all [commandsOf, Event.isFileOp]

theorem mkdirsOf_fileOp {evs : List Event} (h : ∀ ev ∈ evs, ev.isFileOp = true) :
    mkdirsOf evs = [] := by
  induction evs with
  | nil => rfl
  | cons ev evs ih =>
    have h1 := h ev (List.mem_cons_self _ _)
    have h2 := ih (fun e he => h e (List.mem_cons_of_mem _ he))
    cases ev <;> simp_all [mkdirsOf, Event.isFileOp]

theorem removesOf_fileOp {evs : List Event} (h : ∀ ev ∈ evs, ev.isFileOp = true) :
    removesOf evs = [] := by
  induction evs with
  | nil => rfl
  | cons ev evs ih =>
    have h1 := h ev (List.mem_cons_self _ _)
    have h2 := ih (fun e he => h e (List.mem_cons_of_mem _ he))
    cases ev <;> simp_all [removesOf, Event.isFileOp]

theorem commandsOf_append (a b : List Event) :
    commandsOf (a ++ b) = commandsOf a ++ commandsOf b := by
  simp [commandsOf]

theorem mkdirsOf_append (a b : List Event) :
    mkdirsOf (a ++ b) = mkdirsOf a ++ mkdirsOf b := by
  simp [mkdirsOf]

theorem removesOf_append (a b : List Event) :
    removesOf (a ++ b) = removesOf a ++ removesOf b := by
  simp [removesOf]

theorem commandsOf_layoutEvents (d : PacstrapAction) (context : DebosContext) :
    commandsOf (layoutEvents d context) = [] := by
  unfold layoutEvents copyEvents
  split <;> simp [commandsOf]

theorem removesOf_layoutEvents (d : PacstrapAction) (context : DebosContext) :
    removesOf (layoutEvents d context) = [] := by
  unfold layoutEvents copyEvents
  split <;> simp [removesOf]

theorem mkdirsOf_layoutEvents (d : PacstrapAction) (context : DebosContext) :
    mkdirsOf (layoutEvents d context) =
      [pathJoin [context.Rootdir, "var", "lib", "pacman"],
       pathJoin [context.Rootdir, "etc", "pacman.d", "gnupg"]] := by
  unfold layoutEvents copyEvents
  split <;> simp [mkdirsOf]

theorem not_fileOp_not_mem {evs : List Event} (h : ∀ ev ∈ evs, ev.isFileOp = true)
    {ev : Event} (hev : ev.isFileOp = false) : ev ∉ evs := by
  intro hmem
  rw [h ev hmem] at hev
  exact Bool.noConfusion hev

theorem command_not_mem_layoutEvents (d : PacstrapAction) (context : DebosContext)
    (label : String) (cmdline : List String) (b : FS) (r : Option GoError) :
    Event.command label cmdline b r ∉ layoutEvents d context := by
  unfold layoutEvents copyEvents
  split <;> simp

theorem remove_not_mem_layoutEvents (d : PacstrapAction) (context : DebosContext)
    (name : String) (r : Option GoError) :
    Event.remove name r ∉ layoutEvents d context := by
  unfold layoutEvents copyEvents
  split <;> simp

theorem pacstrapCmdline_eq (d : PacstrapAction) (context : DebosContext) :
    pacstrapCmdline d context =
      ["pacstrap", "-GM", "-C", configPath context, context.Rootdir] ++ d.Packages := by
  unfold pacstrapCmdline
  cases hp : d.Packages with
  | nil => simp
  | cons p ps => simp

theorem failedCommands_append (a b : List Event) :
    failedCommands (a ++ b) = failedCommands a ++ failedCommands b := by
  simp [failedCommands]

theorem failedCommands_fileOp {evs : List Event} (h : ∀ ev ∈ evs, ev.isFileOp = true) :
    failedCommands evs = [] := by
  induction evs with
  | nil => rfl
  | cons ev evs ih =>
    have h1 := h ev (List.mem_cons_self _ _)
    have h2 := ih (fun e he => h e (List.mem_cons_of_mem _ he))
    cases ev <;> simp_all [failedCommands, Event.isFileOp]

theorem failedCommands_layoutEvents (d : PacstrapAction) (context : DebosContext) :
    failedCommands (layoutEvents d context) = [] := by
  unfold layoutEvents copyEvents
  split <;> simp [failedCommands]

theorem okCommands_append (a b : List Event) :
    okCommands (a ++ b) = okCommands a ++ okCommands b := by
  simp [okCommands]

theorem okCommands_fileOp {evs : List Event} (h : ∀ ev ∈ evs, ev.isFileOp = true) :
    okCommands evs = [] := by
  induction evs with
  | nil => rfl
  | cons ev evs ih =>
    have h1 := h ev (List.mem_cons_self _ _)
    have h2 := ih (fun e he => h e (List.mem_cons_of_mem _ he))
    cases ev <;> simp_all [okCommands, Event.isFileOp]

theorem okCommands_layoutEvents (d : PacstrapAction) (context : DebosContext) :
    okCommands (layoutEvents d context) = [] := by
  unfold layoutEvents copyEvents
  split <;> simp [okCommands]

/-- The failed processes and all processes of each course of a run. -/
theorem TailShape.commands {d : PacstrapAction} {context : DebosContext} {tail : List Event}
    {res : Option GoError} (h : TailShape d context tail res) :
    (failedCommands tail = [] ∧ commandsOf tail = [] ∧ removesOf tail = [] ∧ res ≠ none) ∨
    (∃ e, failedCommands tail =
        [(["pacman-key", "--nocolor", "--config", configPath context, "--init"], e)] ∧
      commandsOf tail = [["pacman-key", "--nocolor", "--config", configPath context, "--init"]] ∧
      removesOf tail = [] ∧ okCommands tail = [] ∧
      res = some ("Couldn't init pacman keyring: " ++ e)) ∨
    (∃ e, failedCommands tail =
        [(["pacman-key", "--nocolor", "--config", configPath context, "--populate"], e)] ∧
      commandsOf tail =
        [["pacman-key", "--nocolor", "--config", configPath context, "--init"],
         ["pacman-key", "--nocolor", "--config", configPath context, "--populate"]] ∧
      removesOf tail = [] ∧
      okCommands tail = [["pacman-key", "--nocolor", "--config", configPath context, "--init"]] ∧
      res = some ("Couldn't populate pacman keyring: " ++ e)) ∨
    (∃ e rest, failedCommands tail = (pacstrapCmdline d context, e) :: rest ∧
      (∀ p ∈ rest, p.1 = ["cat", pathJoin [context.Rootdir, "var/log/pacman.log"]]) ∧
      commandsOf tail =
        [["pacman-key", "--nocolor", "--config", configPath context, "--init"],
         ["pacman-key", "--nocolor", "--config", configPath context, "--populate"],
         pacstrapCmdline d context,
         ["cat", pathJoin [context.Rootdir, "var/log/pacman.log"]]] ∧
      removesOf tail = [] ∧ pacstrapCmdline d context ∉ okCommands tail ∧
      res = some e) ∨
    (failedCommands tail = [] ∧
      commandsOf tail =
        [["pacman-key", "--nocolor", "--config", configPath context, "--init"],
         ["pacman-key", "--nocolor", "--config", configPath context, "--populate"],
         pacstrapCmdline d context] ∧
      removesOf tail = [configPath context] ∧
      okCommands tail = commandsOf tail ∧
      (∃ pre r, tail = pre ++ [Event.remove (configPath context) r]) ∧
      res = none) := by
  cases h with
  | mkdirLib e => left; simp [failedCommands, commandsOf, removesOf]
  | mkdirGnupg e => left; simp [failedCommands, commandsOf, removesOf]
  | copy e hc => left; simp [failedCommands, commandsOf, removesOf]
  | init b e =>
    right; left
    refine ⟨e, ?_, ?_, ?_, ?_, rfl⟩
    · rw [failedCommands_append, failedCommands_layoutEvents]; simp [failedCommands]
    · rw [commandsOf_append, commandsOf_layoutEvents]; simp [commandsOf]
    · rw [removesOf_append, removesOf_layoutEvents]; simp [removesOf]
    · rw [okCommands_append, okCommands_layoutEvents]; simp [okCommands]
  | populate b1 b2 e =>
    right; right; left
    refine ⟨e, ?_, ?_, ?_, ?_, rfl⟩
    · rw [failedCommands_append, failedCommands_layoutEvents]; simp [failedCommands]
    · rw [commandsOf_append, commandsOf_layoutEvents]; simp [commandsOf]
    · rw [removesOf_append, removesOf_layoutEvents]; simp [removesOf]
    · rw [okCommands_append, okCommands_layoutEvents]; simp [okCommands]
  | pacstrap b1 b2 b3 b4 e r =>
    right; right; right; left
    cases r with
    | none =>
      refine ⟨e, [], ?_, by simp, ?_, ?_, ?_, rfl⟩
      · rw [failedCommands_append, failedCommands_layoutEvents]; simp [failedCommands]
      · rw [commandsOf_append, commandsOf_layoutEvents]; simp [commandsOf]
      · rw [removesOf_append, removesOf_layoutEvents]; simp [removesOf]
      · rw [okCommands_append, okCommands_layoutEvents, pacstrapCmdline_eq]
        simp [okCommands]
    | some e2 =>
      refine ⟨e, [(["cat", pathJoin [context.Rootdir, "var/log/pacman.log"]], e2)], ?_,
        by simp, ?_, ?_, ?_, rfl⟩
      · rw [failedCommands_append, failedCommands_layoutEvents]; simp [failedCommands]
      · rw [commandsOf_append, commandsOf_layoutEvents]; simp [commandsOf]
      · rw [removesOf_append, removesOf_layoutEvents]; simp [removesOf]
      · rw [okCommands_append, okCommands_layoutEvents, pacstrapCmdline_eq]
        simp [okCommands]
  | done b1 b2 b3 r =>
    right; right; right; right
    refine ⟨?_, ?_, ?_, ?_, ⟨layoutEvents d context ++
      [Event.command "Pacman-key"
        ["pacman-key", "--nocolor", "--config", configPath context, "--init"] b1 none,
       Event.command "Pacman-key"
        ["pacman-key", "--nocolor", "--config", configPath context, "--populate"] b2 none,
       Event.command "Pacstrap" (pacstrapCmdline d context) b3 none], r, ?_⟩, rfl⟩
    · rw [failedCommands_append, failedCommands_layoutEvents]; simp [failedCommands]
    · rw [commandsOf_append, commandsOf_layoutEvents]; simp [commandsOf]
    · rw [removesOf_append, removesOf_layoutEvents]; simp [removesOf]
    · rw [okCommands_append, okCommands_layoutEvents, commandsOf_append,
        commandsOf_layoutEvents]
      simp [okCommands, commandsOf]
    · simp

/-- The processes of a whole run: the five courses of `TailShape.commands`, the first
one also covering a failed synthesis. -/
theorem Run_commands (d : PacstrapAction) (context : DebosContext) (env : Env) (fs : FS) :
    let t := (Run d context env (World.start fs)).1.trace
    let res := (Run d context env (World.start fs)).2
    (failedCommands t = [] ∧ commandsOf t = [] ∧ removesOf t = [] ∧ res ≠ none) ∨
    (∃ e, failedCommands t =
        [(["pacman-key", "--nocolor", "--config", configPath context, "--init"], e)] ∧
      commandsOf t = [["pacman-key", "--nocolor", "--config", configPath context, "--init"]] ∧
      removesOf t = [] ∧ okCommands t = [] ∧
      res = some ("Couldn't init pacman keyring: " ++ e)) ∨
    (∃ e, failedCommands t =
        [(["pacman-key", "--nocolor", "--config", configPath context, "--populate"], e)] ∧
      commandsOf t =
        [["pacman-key", "--nocolor", "--config", configPath context, "--init"],
         ["pacman-key", "--nocolor", "--config", configPath context, "--populate"]] ∧
      removesOf t = [] ∧
      okCommands t = [["pacman-key", "--nocolor", "--config", configPath context, "--init"]] ∧
      res = some ("Couldn't populate pacman keyring: " ++ e)) ∨
    (∃ e rest, failedCommands t = (pacstrapCmdline d context, e) :: rest ∧
      (∀ p ∈ rest, p.1 = ["cat", pathJoin [context.Rootdir, "var/log/pacman.log"]]) ∧
      commandsOf t =
        [["pacman-key", "--nocolor", "--config", configPath context, "--init"],
         ["pacman-key", "--nocolor", "--config", configPath context, "--populate"],
         pacstrapCmdline d context,
         ["cat", pathJoin [context.Rootdir, "var/log/pacman.log"]]] ∧
      removesOf t = [] ∧ pacstrapCmdline d context ∉ okCommands t ∧
      res = some e) ∨
    (failedCommands t = [] ∧
      commandsOf t =
        [["pacman-key", "--nocolor", "--config", configPath context, "--init"],
         ["pacman-key", "--nocolor", "--config", configPath context, "--populate"],
         pacstrapCmdline d context] ∧
      removesOf t = [configPath context] ∧
      okCommands t = commandsOf t ∧
      (∃ pre r, t = pre ++ [Event.remove (configPath context) r]) ∧
      res = none) := by
  intro t res
  rcases Run_shape d context env fs with ⟨x, hx, hf⟩ | ⟨evs, tail, ht, hok, hs⟩
  · left
    refine ⟨failedCommands_fileOp hf.onlyFileOp, commandsOf_fileOp hf.onlyFileOp,
      removesOf_fileOp hf.onlyFileOp, ?_⟩
    show (Run d context env (World.start fs)).2 ≠ none
    rw [hx]; exact Option.some_ne_none x
  · have h1 : failedCommands t = failedCommands tail := by
      show failedCommands (Run d context env (World.start fs)).1.trace = _
      rw [ht, failedCommands_append, failedCommands_fileOp hok.fileOp]; rfl
    have h2 : commandsOf t = commandsOf tail := by
      show commandsOf (Run d context env (World.start fs)).1.trace = _
      rw [ht, commandsOf_append, commandsOf_fileOp hok.fileOp]; rfl
    have h3 : removesOf t = removesOf tail := by
      show removesOf (Run d context env (World.start fs)).1.trace = _
      rw [ht, removesOf_append, removesOf_fileOp hok.fileOp]; rfl
    have h4 : okCommands t = okCommands tail := by
      show okCommands (Run d context env (World.start fs)).1.trace = _
      rw [ht, okCommands_append, okCommands_fileOp hok.fileOp]; rfl
    rw [h1, h2, h3, h4]
    rcases hs.commands with h | h | h | h | ⟨a, b, c, e, ⟨pre, r, hpre⟩, g⟩
    · exact Or.inl h
    · exact Or.inr (Or.inl h)
    · exact Or.inr (Or.inr (Or.inl h))
    · exact Or.inr (Or.inr (Or.inr (Or.inl h)))
    · refine Or.inr (Or.inr (Or.inr (Or.inr ⟨a, b, c, e, ⟨evs ++ pre, r, ?_⟩, g⟩)))
      show (Run d context env (World.start fs)).1.trace = _
      rw [ht, hpre, List.append_assoc]

theorem pacstrapCmdline_ne_init (d : PacstrapAction) (context : DebosContext) :
    pacstrapCmdline d context
      ≠ ["pacman-key", "--nocolor", "--config", configPath context, "--init"] := by
  rw [pacstrapCmdline_eq]; simp

theorem pacstrapCmdline_ne_populate (d : PacstrapAction) (context : DebosContext) :
    pacstrapCmdline d context
      ≠ ["pacman-key", "--nocolor", "--config", configPath context, "--populate"] := by
  rw [pacstrapCmdline_eq]; simp

theorem pacstrapCmdline_ne_cat (d : PacstrapAction) (context : DebosContext) :
    pacstrapCmdline d context ≠ ["cat", pathJoin [context.Rootdir, "var/log/pacman.log"]] := by
  rw [pacstrapCmdline_eq]; simp

/-! ## File operations in a trace -/

theorem layoutEvents_noFileOp (d : PacstrapAction) (context : DebosContext) :
    ∀ ev ∈ layoutEvents d context, ev.isFileOp = false := by
  intro ev hev
  unfold layoutEvents copyEvents at hev
  split at hev
  · simp only [List.mem_append, List.mem_cons, List.mem_singleton, List.not_mem_nil,
      or_false] at hev
    rcases hev with (rfl | rfl) | rfl <;> rfl
  · simp only [List.append_nil, List.mem_cons, List.mem_singleton, List.not_mem_nil,
      or_false] at hev
    rcases hev with rfl | rfl <;> rfl

/-- After the configuration is written `Run` opens, writes and closes no file. -/
theorem TailShape.noFileOp {d : PacstrapAction} {context : DebosContext} {tail : List Event}
    {res : Option GoError} (h : TailShape d context tail res) :
    ∀ ev ∈ tail, ev.isFileOp = false := by
  intro ev hev
  cases h with
  | mkdirLib e => rw [List.mem_singleton.1 hev]; rfl
  | mkdirGnupg e =>
    simp only [List.mem_cons, List.mem_singleton, List.not_mem_nil, or_false] at hev
    rcases hev with rfl | rfl <;> rfl
  | copy e hc =>
    simp only [List.mem_cons, List.mem_singleton, List.not_mem_nil, or_false] at hev
    rcases hev with rfl | rfl | rfl <;> rfl
  | init b e =>
    rcases List.mem_append.1 hev with h | h
    · exact layoutEvents_noFileOp d context ev h
    · rw [List.mem_singleton.1 h]; rfl
  | populate b1 b2 e =>
    rcases List.mem_append.1 hev with h | h
    · exact layoutEvents_noFileOp d context ev h
    · simp only [List.mem_cons, List.mem_singleton, List.not_mem_nil, or_false] at h
      rcases h with rfl | rfl <;> rfl
  | pacstrap b1 b2 b3 b4 e r =>
    rcases List.mem_append.1 hev with h | h
    · exact layoutEvents_noFileOp d context ev h
    · simp only [List.mem_cons, List.mem_singleton, List.not_mem_nil, or_false] at h
      rcases h with rfl | rfl | rfl | rfl <;> rfl
  | done b1 b2 b3 r =>
    rcases List.mem_append.1 hev with h | h
    · exact layoutEvents_noFileOp d context ev h
    · simp only [List.mem_cons, List.mem_singleton, List.not_mem_nil, or_false] at h
      rcases h with rfl | rfl | rfl | rfl <;> rfl

/-- After the configuration is written the first thing `Run` does is `os.MkdirAll`. -/
theorem TailShape.mkdirs_ne_nil {d : PacstrapAction} {context : DebosContext}
    {tail : List Event} {res : Option GoError} (h : TailShape d context tail res) :
    mkdirsOf tail ≠ [] := by
  cases h <;> simp [mkdirsOf, layoutEvents]

theorem noFileOp_reads {evs : List Event} (h : ∀ ev ∈ evs, ev.isFileOp = false)
    (name : String) :
    failedOpens evs = [] ∧ failedWrites evs = [] ∧ failedCloses evs = [] ∧
    writesTo name evs = [] ∧
    ∀ n off s r, Event.writeString n off s r ∉ evs := by
  refine ⟨?_, ?_, ?_, ?_, ?_⟩
  · rw [failedOpens, List.filterMap_eq_nil_iff]
    intro ev hev
    have := h ev hev
    cases ev <;> simp_all [Event.isFileOp]
  · rw [failedWrites, List.filterMap_eq_nil_iff]
    intro ev hev
    have := h ev hev
    cases ev <;> simp_all [Event.isFileOp]
  · rw [failedCloses, List.filterMap_eq_nil_iff]
    intro ev hev
    have := h ev hev
    cases ev <;> simp_all [Event.isFileOp]
  · rw [writesTo, List.filterMap_eq_nil_iff]
    intro ev hev
    have := h ev hev
    cases ev <;> simp_all [Event.isFileOp]
  · intro n off s r hmem
    have := h _ hmem
    simp [Event.isFileOp] at this

theorem fileOp_reads {evs : List Event} (h : ∀ ev ∈ evs, ev.isFileOp = true) :
    failedMkdirs evs = [] ∧ failedCopies evs = [] ∧ okCopies evs = [] ∧
    failedRemoves evs = [] := by
  refine ⟨?_, ?_, ?_, ?_⟩
  · rw [failedMkdirs, List.filterMap_eq_nil_iff]
    intro ev hev
    have := h ev hev
    cases ev <;> simp_all [Event.isFileOp]
  · rw [failedCopies, List.filterMap_eq_nil_iff]
    intro ev hev
    have := h ev hev
    cases ev <;> simp_all [Event.isFileOp]
  · rw [okCopies, List.filterMap_eq_nil_iff]
    intro ev hev
    have := h ev hev
    cases ev <;> simp_all [Event.isFileOp]
  · rw [failedRemoves, List.filterMap_eq_nil_iff]
    intro ev hev
    have := h ev hev
    cases ev <;> simp_all [Event.isFileOp]

theorem err_none_reads {evs : List Event} (h : ∀ ev ∈ evs, ev.err = none) :
    failedOpens evs = [] ∧ failedWrites evs = [] ∧ failedCloses evs = [] := by
  refine ⟨?_, ?_, ?_⟩
  · rw [failedOpens, List.filterMap_eq_nil_iff]
    intro ev hev
    have := h ev hev
    cases ev <;> simp_all [Event.err]
  · rw [failedWrites, List.filterMap_eq_nil_iff]
    intro ev hev
    have := h ev hev
    cases ev <;> simp_all [Event.err]
  · rw [failedCloses, List.filterMap_eq_nil_iff]
    intro ev hev
    have := h ev hev
    cases ev <;> simp_all [Event.err]

theorem writesTo_mid {name : String} {mid : List Event}
    (h : ∀ ev ∈ mid, ev.err = none ∧ ∃ off s r, ev = Event.writeString name off s r) :
    ∀ n off s r, Event.writeString n off s r ∈ mid → n = name := by
  intro n off s r hmem
  obtain ⟨-, off1, s1, r1, heq⟩ := h _ hmem
  simp only [Event.writeString.injEq] at heq
  exact heq.1

/-- What a completed synthesis wrote. -/
theorem ConfigOk.reads {d : PacstrapAction} {context : DebosContext} {evs : List Event}
    (h : ConfigOk d context evs) :
    failedOpens evs = [] ∧ failedWrites evs = [] ∧
    writesTo (configPath context) evs
      = specOptionsSection context.Rootdir :: d.Repositories.map specRepoSection ∧
    ∀ n off s r, Event.writeString n off s r ∈ evs → n = configPath context := by
  obtain ⟨mid, cl, rfl, hmid, hw⟩ := h
  obtain ⟨h1, h2, -⟩ := err_none_reads (fun ev hev => (hmid ev hev).1)
  refine ⟨?_, ?_, ?_, ?_⟩
  · have : failedOpens (Event.openFile (configPath context) (O_RDWR ||| O_CREATE) none ::
        Event.writeString (configPath context) 0 (specOptionsSection context.Rootdir) none ::
        mid ++ [Event.close (configPath context) cl]) = failedOpens mid := by
      simp [failedOpens]
    rw [this, h1]
  · have : failedWrites (Event.openFile (configPath context) (O_RDWR ||| O_CREATE) none ::
        Event.writeString (configPath context) 0 (specOptionsSection context.Rootdir) none ::
        mid ++ [Event.close (configPath context) cl]) = failedWrites mid := by
      simp [failedWrites]
    rw [this, h2]
  · have : writesTo (configPath context)
        (Event.openFile (configPath context) (O_RDWR ||| O_CREATE) none ::
        Event.writeString (configPath context) 0 (specOptionsSection context.Rootdir) none ::
        mid ++ [Event.close (configPath context) cl])
        = specOptionsSection context.Rootdir :: writesTo (configPath context) mid := by
      simp [writesTo]
    rw [this, hw]
  · intro n off s r hmem
    simp only [List.mem_cons, List.mem_append, List.not_mem_nil, or_false] at hmem
    rcases hmem with (h | h | h) | h
    · exact Event.noConfusion h
    · simp only [Event.writeString.injEq] at h
      exact h.1
    · exact writesTo_mid hmid n off s r h
    · exact Event.noConfusion h

/-- How the synthesis ended, read off the trace of the run. -/
theorem Run_config_outcome (d : PacstrapAction) (context : DebosContext) (env : Env)
    (fs : FS) :
    let t := (Run d context env (World.start fs)).1.trace
    let res := (Run d context env (World.start fs)).2
    (∃ e, failedOpens t = [(configPath context, e)] ∧ failedWrites t = [] ∧
      failedCloses t = [] ∧
      t = [Event.openFile (configPath context) (O_RDWR ||| O_CREATE) (some e)] ∧
      res = some ("Couldn't open pacman config: " ++ e)) ∨
    (∃ e, failedOpens t = [] ∧ failedWrites t = [(configPath context, e)] ∧
      failedCloses t = [] ∧ (∀ ev ∈ t, ev.isFileOp = true) ∧
      (res = some ("Couldn't write pacman config: " ++ e) ∨
       res = some ("Couldn't write to pacman config: " ++ e))) ∨
    (failedOpens t = [] ∧ failedWrites t = [] ∧
      ∃ evs tail, t = evs ++ tail ∧ ConfigOk d context evs ∧ TailShape d context tail res) := by
  intro t res
  rcases Run_shape d context env fs with ⟨x, hx, hf⟩ | ⟨evs, tail, ht, hok, hs⟩
  · have hio := hf.onlyFileOp
    obtain ⟨e, pre, last, hpl, hpre, hlast⟩ := hf
    obtain ⟨p1, p2, p3⟩ := err_none_reads (fun ev hev => (hpre ev hev).1)
    have ht : t = pre ++ [last] := hpl
    rcases hlast with ⟨rfl, rfl, rfl⟩ | ⟨⟨off, s, rfl⟩, hmsg⟩
    · left
      refine ⟨e, ?_, ?_, ?_, ?_, hx⟩
      · rw [ht]; simp [failedOpens]
      · rw [ht]; simp [failedWrites]
      · rw [ht]; simp [failedCloses]
      · rw [ht]; simp
    · right; left
      refine ⟨e, ?_, ?_, ?_, hio, ?_⟩
      · rw [ht]
        have : failedOpens (pre ++ [Event.writeString (configPath context) off s (some e)])
            = failedOpens pre := by simp [failedOpens]
        rw [this, p1]
      · rw [ht]
        have : failedWrites (pre ++ [Event.writeString (configPath context) off s (some e)])
            = failedWrites pre ++ [(configPath context, e)] := by simp [failedWrites]
        rw [this, p2]; rfl
      · rw [ht]
        have : failedCloses (pre ++ [Event.writeString (configPath context) off s (some e)])
            = failedCloses pre := by simp [failedCloses]
        rw [this, p3]
      · rcases hmsg with h | h
        · left; show (Run d context env (World.start fs)).2 = _; rw [hx, h]
        · right; show (Run d context env (World.start fs)).2 = _; rw [hx, h]
  · right; right
    obtain ⟨q1, q2, -, -⟩ := hok.reads
    obtain ⟨r1, r2, -, -, -⟩ := noFileOp_reads hs.noFileOp (configPath context)
    have ht2 : t = evs ++ tail := ht
    refine ⟨?_, ?_, evs, tail, ht2, hok, hs⟩
    · rw [ht2]
      have : failedOpens (evs ++ tail) = failedOpens evs ++ failedOpens tail := by
        simp [failedOpens]
      rw [this, q1, r1]; rfl
    · rw [ht2]
      have : failedWrites (evs ++ tail) = failedWrites evs ++ failedWrites tail := by
        simp [failedWrites]
      rw [this, q2, r2]; rfl

/-! ## Copies, removals and what the tools see -/

theorem failedCopies_append (a b : List Event) :
    failedCopies (a ++ b) = failedCopies a ++ failedCopies b := by
  simp [failedCopies]

theorem okCopies_append (a b : List Event) :
    okCopies (a ++ b) = okCopies a ++ okCopies b := by
  simp [okCopies]

theorem failedRemoves_append (a b : List Event) :
    failedRemoves (a ++ b) = failedRemoves a ++ failedRemoves b := by
  simp [failedRemoves]

theorem failedMkdirs_append (a b : List Event) :
    failedMkdirs (a ++ b) = failedMkdirs a ++ failedMkdirs b := by
  simp [failedMkdirs]

theorem configSeen_append (p : String) (a b : List Event) :
    configSeen p (a ++ b) = configSeen p a ++ configSeen p b := by
  simp [configSeen]

theorem configSeen_fileOp (p : String) {evs : List Event}
    (h : ∀ ev ∈ evs, ev.isFileOp = true) : configSeen p evs = [] := by
  rw [configSeen, List.filterMap_eq_nil_iff]
  intro ev hev
  have := h ev hev
  cases ev <;> simp_all [Event.isFileOp]

theorem layoutEvents_reads (d : PacstrapAction) (context : DebosContext) (p : String) :
    failedCopies (layoutEvents d context) = [] ∧
    failedRemoves (layoutEvents d context) = [] ∧
    failedMkdirs (layoutEvents d context) = [] ∧
    configSeen p (layoutEvents d context) = [] ∧
    okCopies (layoutEvents d context) =
      (if d.Config.length > 0 then
        [(pathJoin [context.RecipeDir, d.Config], configPath context)] else []) := by
  unfold layoutEvents copyEvents
  split <;> simp [failedCopies, failedRemoves, failedMkdirs, configSeen, okCopies]

/-- When the installer fails, the configuration file is still there at the end of the
run, external processes leaving that file alone. -/
theorem config_kept_on_installer_failure (d : PacstrapAction) (context : DebosContext)
    (env : Env) (fs : FS) (e : GoError)
    (h : (pacstrapCmdline d context, e)
      ∈ failedCommands (Run d context env (World.start fs)).1.trace)
    (hkeep : env.keepsFile (configPath context)) :
    (Run d context env (World.start fs)).1.fs.files (configPath context) ≠ none := by
  revert h
  apply Run_courses d context env fs
    (fun r => (pacstrapCmdline d context, e) ∈ failedCommands r.1.trace →
      r.1.fs.files (configPath context) ≠ none)
  · intro w1 x _ hf h
    dsimp only at h
    rw [failedCommands_fileOp hf.onlyFileOp] at h
    simp at h
  · intro w1 w2 x tail _ _ hok ht hs h
    dsimp only at h
    rw [ht, failedCommands_append, failedCommands_fileOp hok.fileOp] at h
    rcases hs with ⟨e1, rfl, -⟩ | ⟨e1, rfl, -⟩ <;> simp [failedCommands] at h
  · intro w1 w2 w3 e1 _ _ _ hok ht _ h
    dsimp only at h
    rw [ht, failedCommands_append, failedCommands_fileOp hok.fileOp] at h
    simp [failedCommands] at h
  · intro w1 w2 w3 w4 x tail _ _ _ _ hok ht hs h
    dsimp only at h
    rw [ht, failedCommands_append, failedCommands_fileOp hok.fileOp, List.nil_append] at h
    rcases hs with ⟨e1, rfl, -⟩ | ⟨e1, wa, rfl, -, -⟩
    · rw [failedCommands_append, failedCommands_layoutEvents] at h
      simp only [failedCommands, List.filterMap_cons, List.filterMap_nil, List.nil_append,
        List.mem_singleton, Prod.mk.injEq] at h
      exact absurd h.1 (pacstrapCmdline_ne_init d context)
    · rw [failedCommands_append, failedCommands_layoutEvents] at h
      simp only [failedCommands, List.filterMap_cons, List.filterMap_nil, List.nil_append,
        List.mem_singleton, Prod.mk.injEq] at h
      exact absurd h.1 (pacstrapCmdline_ne_populate d context)
  · intro w1 w2 w3 w4 w5 x wa wb r e1 e2 e3 _ _ _ _ hwa hw4 hwb hw5 _
    dsimp only
    have h3 : w3.fs.files (configPath context) ≠ none := by
      rcases copyConfig_ok e3 with ⟨-, rfl⟩ | ⟨-, c, -, hfs, -⟩
      · obtain ⟨-, hfiles, -, -⟩ := createLayout_ok e2
        obtain ⟨mid, cl, -, -, -, hc⟩ := @writeConfig_ok d context env (World.start fs)
          (by rw [e1])
        rw [e1] at hc
        rw [hfiles, hc]
        exact Option.some_ne_none _
      · rw [hfs]
        simp [FS.setFile]
    rw [hw5, hkeep, hwb, hkeep, hw4, hkeep, hwa, hkeep]
    exact h3
  · intro w1 w2 w3 w4 w5 wa _ _ _ _ _ hok ht _ _ _ h
    dsimp only at h
    rw [ht, failedCommands_append, failedCommands_fileOp hok.fileOp, failedCommands_append,
      failedCommands_layoutEvents] at h
    simp [failedCommands] at h

/-! ## The claims -/

/-- C2. In a run that returns `nil` (every step up to and including the installer
succeeded) the external processes started are exactly, in this order,
`pacman-key --nocolor --config C --init`, `pacman-key --nocolor --config C
--populate` and `pacstrap -GM -C C targetRoot` followed by the packages in
input order, where `C` is `scratchDir/pacman.conf`.  With no packages the
installer's last argument is the target root, and no `cat` is started. -/
theorem run_success_invocations (d : PacstrapAction) (context : DebosContext) (env : Env)
    (fs : FS) (h : (Run d context env (World.start fs)).2 = none) :
    commandsOf (Run d context env (World.start fs)).1.trace =
      [["pacman-key", "--nocolor", "--config", pathJoin [context.Scratchdir, "pacman.conf"],
        "--init"],
       ["pacman-key", "--nocolor", "--config", pathJoin [context.Scratchdir, "pacman.conf"],
        "--populate"],
       ["pacstrap", "-GM", "-C", pathJoin [context.Scratchdir, "pacman.conf"],
        context.Rootdir] ++ d.Packages] ∧
    (d.Packages = [] →
      ((commandsOf (Run d context env (World.start fs)).1.trace).getLast?.bind List.getLast?)
        = some context.Rootdir) ∧
    (∀ c ∈ commandsOf (Run d context env (World.start fs)).1.trace, c.head? ≠ some "cat") := by
  have hcmds : commandsOf (Run d context env (World.start fs)).1.trace =
      [["pacman-key", "--nocolor", "--config", pathJoin [context.Scratchdir, "pacman.conf"],
        "--init"],
       ["pacman-key", "--nocolor", "--config", pathJoin [context.Scratchdir, "pacman.conf"],
        "--populate"],
       ["pacstrap", "-GM", "-C", pathJoin [context.Scratchdir, "pacman.conf"],
        context.Rootdir] ++ d.Packages] := by
    rcases Run_commands d context env fs with ⟨-, -, -, hr⟩ | ⟨e, -, -, -, -, hr⟩ |
      ⟨e, -, -, -, -, hr⟩ | ⟨e, rest, -, -, -, -, -, hr⟩ | ⟨-, hc, -⟩
    · exact absurd h hr
    · rw [h] at hr; exact Option.noConfusion hr
    · rw [h] at hr; exact Option.noConfusion hr
    · rw [h] at hr; exact Option.noConfusion hr
    · rw [hc, pacstrapCmdline_eq]; rfl
  refine ⟨hcmds, ?_, ?_⟩
  · intro hp
    rw [hcmds, hp]
    simp
  · intro c hc
    rw [hcmds] at hc
    simp only [List.mem_cons, List.mem_singleton, List.not_mem_nil, or_false] at hc
    rcases hc with rfl | rfl | rfl <;> simp

/-- Witness for C2: the specification's example, in an environment where nothing fails. -/
theorem run_success_invocations_witness :
    (Run sampleAction sampleContext noFaults.env (World.start emptyFS)).2 = none ∧
    commandsOf (Run sampleAction sampleContext noFaults.env (World.start emptyFS)).1.trace =
      [["pacman-key", "--nocolor", "--config", "/scratch/pacman.conf", "--init"],
       ["pacman-key", "--nocolor", "--config", "/scratch/pacman.conf", "--populate"],
       ["pacstrap", "-GM", "-C", "/scratch/pacman.conf", "/scratch/root", "base", "linux"]] :=
  ⟨by decide,
    (run_success_invocations sampleAction sampleContext noFaults.env emptyFS (by decide)).1⟩

/-- C4. If the keyring initialisation `pacman-key ... --init` fails with `e`, it is the
only external process of the run (no `--populate`, no installer) and `Run`
returns the keyring-init error wrapping `e`.  If the population `pacman-key
... --populate` fails with `e`, the processes of the run are the
initialisation and the population only (no installer) and `Run` returns the
keyring-populate error wrapping `e`. -/
theorem keyring_failure_stops (d : PacstrapAction) (context : DebosContext) (env : Env)
    (fs : FS) (e : GoError) :
    ((["pacman-key", "--nocolor", "--config", configPath context, "--init"], e)
        ∈ failedCommands (Run d context env (World.start fs)).1.trace →
      commandsOf (Run d context env (World.start fs)).1.trace =
        [["pacman-key", "--nocolor", "--config", configPath context, "--init"]] ∧
      (Run d context env (World.start fs)).2 = some ("Couldn't init pacman keyring: " ++ e)) ∧
    ((["pacman-key", "--nocolor", "--config", configPath context, "--populate"], e)
        ∈ failedCommands (Run d context env (World.start fs)).1.trace →
      commandsOf (Run d context env (World.start fs)).1.trace =
        [["pacman-key", "--nocolor", "--config", configPath context, "--init"],
         ["pacman-key", "--nocolor", "--config", configPath context, "--populate"]] ∧
      (Run d context env (World.start fs)).2
        = some ("Couldn't populate pacman keyring: " ++ e)) := by
  have hi := pacstrapCmdline_ne_init d context
  have hp := pacstrapCmdline_ne_populate d context
  rcases Run_commands d context env fs with ⟨hf, -⟩ | ⟨e1, hf, hc, -, -, hr⟩ |
    ⟨e1, hf, hc, -, -, hr⟩ | ⟨e1, rest, hf, hrest, -⟩ | ⟨hf, -⟩
  · rw [hf]; simp
  · rw [hf, hc, hr]
    simp only [List.mem_singleton, Prod.mk.injEq]
    refine ⟨?_, ?_⟩
    · rintro ⟨-, rfl⟩; simp
    · rintro ⟨h, -⟩; simp at h
  · rw [hf, hc, hr]
    simp only [List.mem_singleton, Prod.mk.injEq]
    refine ⟨?_, ?_⟩
    · rintro ⟨h, -⟩; simp at h
    · rintro ⟨-, rfl⟩; simp
  · rw [hf]
    simp only [List.mem_cons, Prod.mk.injEq]
    refine ⟨?_, ?_⟩
    · rintro (⟨h, -⟩ | h)
      · exact absurd h.symm hi
      · have := hrest _ h; simp at this
    · rintro (⟨h, -⟩ | h)
      · exact absurd h.symm hp
      · have := hrest _ h; simp at this
  · rw [hf]; simp

/-- Witness for C4: the example with a failing `--init`, and with a failing
`--populate`. -/
theorem keyring_failure_stops_witness :
    ((["pacman-key", "--nocolor", "--config", "/scratch/pacman.conf", "--init"],
        "exit status 1") ∈ failedCommands (Run sampleAction sampleContext
          (commandFaults [("pacman-key", "--init", "exit status 1")]).env
          (World.start emptyFS)).1.trace ∧
      (Run sampleAction sampleContext
          (commandFaults [("pacman-key", "--init", "exit status 1")]).env
          (World.start emptyFS)).2 = some "Couldn't init pacman keyring: exit status 1") ∧
    ((["pacman-key", "--nocolor", "--config", "/scratch/pacman.conf", "--populate"],
        "exit status 1") ∈ failedCommands (Run sampleAction sampleContext
          (commandFaults [("pacman-key", "--populate", "exit status 1")]).env
          (World.start emptyFS)).1.trace ∧
      commandsOf (Run sampleAction sampleContext
          (commandFaults [("pacman-key", "--populate", "exit status 1")]).env
          (World.start emptyFS)).1.trace =
        [["pacman-key", "--nocolor", "--config", "/scratch/pacman.conf", "--init"],
         ["pacman-key", "--nocolor", "--config", "/scratch/pacman.conf", "--populate"]]) :=
  ⟨⟨by decide,
     ((keyring_failure_stops sampleAction sampleContext
        (commandFaults [("pacman-key", "--init", "exit status 1")]).env emptyFS
        "exit status 1").1 (by decide)).2⟩,
   ⟨by decide,
     ((keyring_failure_stops sampleAction sampleContext
        (commandFaults [("pacman-key", "--populate", "exit status 1")]).env emptyFS
        "exit status 1").2 (by decide)).1⟩⟩

/-- C5. If the installer invocation fails with `e`, the run goes on with exactly one
more process, `cat targetRoot/var/log/pacman.log`, and `Run` returns `e`
itself, whatever that `cat` reports. -/
theorem installer_failure_returns_error (d : PacstrapAction) (context : DebosContext)
    (env : Env) (fs : FS) (e : GoError)
    (h : (["pacstrap", "-GM", "-C", configPath context, context.Rootdir] ++ d.Packages, e)
        ∈ failedCommands (Run d context env (World.start fs)).1.trace) :
    (Run d context env (World.start fs)).2 = some e ∧
    commandsOf (Run d context env (World.start fs)).1.trace =
      [["pacman-key", "--nocolor", "--config", configPath context, "--init"],
       ["pacman-key", "--nocolor", "--config", configPath context, "--populate"],
       ["pacstrap", "-GM", "-C", configPath context, context.Rootdir] ++ d.Packages,
       ["cat", pathJoin [context.Rootdir, "var/log/pacman.log"]]] := by
  have hi := pacstrapCmdline_ne_init d context
  have hp := pacstrapCmdline_ne_populate d context
  have hcat := pacstrapCmdline_ne_cat d context
  rw [← pacstrapCmdline_eq] at h ⊢
  rcases Run_commands d context env fs with ⟨hf, -⟩ | ⟨e1, hf, -⟩ |
    ⟨e1, hf, -⟩ | ⟨e1, rest, hf, hrest, hc, -, -, hr⟩ | ⟨hf, -⟩
  · rw [hf] at h; simp at h
  · rw [hf] at h
    simp only [List.mem_singleton, Prod.mk.injEq] at h
    exact absurd h.1 hi
  · rw [hf] at h
    simp only [List.mem_singleton, Prod.mk.injEq] at h
    exact absurd h.1 hp
  · rw [hf] at h
    simp only [List.mem_cons, Prod.mk.injEq] at h
    rcases h with ⟨-, rfl⟩ | h
    · exact ⟨hr, hc⟩
    · exact absurd (hrest _ h) hcat
  · rw [hf] at h; simp at h

/-- Witness for C5: the example with a failing installer, once with a `cat` that
succeeds and once with a `cat` that fails too. -/
theorem installer_failure_returns_error_witness :
    (Run sampleAction sampleContext
        (commandFaults [("pacstrap", "linux", "exit status 1")]).env
        (World.start emptyFS)).2 = some "exit status 1" ∧
    (Run sampleAction sampleContext
        (commandFaults [("pacstrap", "linux", "exit status 1"),
          ("cat", "/scratch/root/var/log/pacman.log", "exit status 2")]).env
        (World.start emptyFS)).2 = some "exit status 1" ∧
    failedCommands (Run sampleAction sampleContext
        (commandFaults [("pacstrap", "linux", "exit status 1"),
          ("cat", "/scratch/root/var/log/pacman.log", "exit status 2")]).env
        (World.start emptyFS)).1.trace =
      [(["pacstrap", "-GM", "-C", "/scratch/pacman.conf", "/scratch/root", "base", "linux"],
          "exit status 1"),
       (["cat", "/scratch/root/var/log/pacman.log"], "exit status 2")] :=
  ⟨(installer_failure_returns_error sampleAction sampleContext
      (commandFaults [("pacstrap", "linux", "exit status 1")]).env emptyFS "exit status 1"
      (by decide)).1,
   (installer_failure_returns_error sampleAction sampleContext
      (commandFaults [("pacstrap", "linux", "exit status 1"),
        ("cat", "/scratch/root/var/log/pacman.log", "exit status 2")]).env emptyFS
      "exit status 1" (by decide)).1,
   by decide⟩

/-- C6. A run that returns an error never calls `os.Remove`, in particular when the
installer fails; in that case the configuration file still exists at the end
of the run, external processes leaving that file alone.  A run that calls
`os.Remove` calls it once, on `scratchDir/pacman.conf`, as its last
operation, after the installer has succeeded, and returns `nil`. -/
theorem config_removed_only_after_success (d : PacstrapAction) (context : DebosContext)
    (env : Env) (fs : FS) :
    ((Run d context env (World.start fs)).2 ≠ none →
      removesOf (Run d context env (World.start fs)).1.trace = []) ∧
    (∀ e, (["pacstrap", "-GM", "-C", configPath context, context.Rootdir] ++ d.Packages, e)
        ∈ failedCommands (Run d context env (World.start fs)).1.trace →
      (Run d context env (World.start fs)).2 ≠ none ∧
      removesOf (Run d context env (World.start fs)).1.trace = [] ∧
      (env.keepsFile (configPath context) →
        (Run d context env (World.start fs)).1.fs.files (configPath context) ≠ none)) ∧
    (removesOf (Run d context env (World.start fs)).1.trace ≠ [] →
      removesOf (Run d context env (World.start fs)).1.trace = [configPath context] ∧
      (∃ pre r, (Run d context env (World.start fs)).1.trace
        = pre ++ [Event.remove (configPath context) r]) ∧
      (["pacstrap", "-GM", "-C", configPath context, context.Rootdir] ++ d.Packages)
        ∈ okCommands (Run d context env (World.start fs)).1.trace ∧
      (Run d context env (World.start fs)).2 = none) := by
  rw [← pacstrapCmdline_eq]
  have hkept := config_kept_on_installer_failure d context env fs
  rcases Run_commands d context env fs with ⟨hf, -, hrm, hr⟩ | ⟨e1, hf, -, hrm, -, hr⟩ |
    ⟨e1, hf, -, hrm, -, hr⟩ | ⟨e1, rest, hf, hrest, -, hrm, -, hr⟩ |
    ⟨hf, hc, hrm, hok, hlast, hr⟩
  · exact ⟨fun _ => hrm, fun e h => ⟨hr, hrm, hkept e h⟩, fun h => absurd hrm h⟩
  · refine ⟨fun _ => hrm, fun e h => ⟨?_, hrm, hkept e h⟩, fun h => absurd hrm h⟩
    rw [hr]; exact Option.some_ne_none _
  · refine ⟨fun _ => hrm, fun e h => ⟨?_, hrm, hkept e h⟩, fun h => absurd hrm h⟩
    rw [hr]; exact Option.some_ne_none _
  · refine ⟨fun _ => hrm, fun e h => ⟨?_, hrm, hkept e h⟩, fun h => absurd hrm h⟩
    rw [hr]; exact Option.some_ne_none _
  · refine ⟨fun h => absurd hr h, ?_, fun _ => ⟨hrm, hlast, ?_, hr⟩⟩
    · intro e h
      rw [hf] at h
      simp at h
    · rw [hok, hc]
      simp

set_option maxRecDepth 100000 in
/-- Witness for C6: when the installer of the example fails, nothing is removed and the
configuration file is still there; when it succeeds, the file is removed. -/
theorem config_removed_only_after_success_witness :
    (removesOf (Run sampleAction sampleContext
        (commandFaults [("pacstrap", "linux", "exit status 1")]).env
        (World.start emptyFS)).1.trace = [] ∧
     (Run sampleAction sampleContext
        (commandFaults [("pacstrap", "linux", "exit status 1")]).env
        (World.start emptyFS)).1.fs.files "/scratch/pacman.conf"
      = some (specConfigText "/scratch/root" [coreRepo])) ∧
    (Run sampleAction sampleContext noFaults.env (World.start emptyFS)).2 = none :=
  ⟨⟨(config_removed_only_after_success sampleAction sampleContext
        (commandFaults [("pacstrap", "linux", "exit status 1")]).env emptyFS).1 (by decide),
      by decide⟩,
   ((config_removed_only_after_success sampleAction sampleContext noFaults.env emptyFS).2.2
      (by decide)).2.2.2⟩

/-- C9, as the code has it.  If opening the configuration file fails with `e`, `Run`
returns the open error wrapping `e`; if a write (of the options section or
of a repository section) fails with `e`, `Run` returns a write error
wrapping `e`; in both cases the run consists of file operations only: no
directory is created and no external process is started.  A failing `Close`
is ignored: the run goes on with the creation of the layout. -/
theorem config_write_failure_stops (d : PacstrapAction) (context : DebosContext) (env : Env)
    (fs : FS) (name : String) (e : GoError) :
    ((name, e) ∈ failedOpens (Run d context env (World.start fs)).1.trace →
      (Run d context env (World.start fs)).2 = some ("Couldn't open pacman config: " ++ e) ∧
      mkdirsOf (Run d context env (World.start fs)).1.trace = [] ∧
      commandsOf (Run d context env (World.start fs)).1.trace = [] ∧
      ∀ ev ∈ (Run d context env (World.start fs)).1.trace, ev.isFileOp = true) ∧
    ((name, e) ∈ failedWrites (Run d context env (World.start fs)).1.trace →
      ((Run d context env (World.start fs)).2 = some ("Couldn't write pacman config: " ++ e) ∨
       (Run d context env (World.start fs)).2
        = some ("Couldn't write to pacman config: " ++ e)) ∧
      mkdirsOf (Run d context env (World.start fs)).1.trace = [] ∧
      commandsOf (Run d context env (World.start fs)).1.trace = [] ∧
      ∀ ev ∈ (Run d context env (World.start fs)).1.trace, ev.isFileOp = true) ∧
    ((name, e) ∈ failedCloses (Run d context env (World.start fs)).1.trace →
      failedOpens (Run d context env (World.start fs)).1.trace = [] ∧
      failedWrites (Run d context env (World.start fs)).1.trace = [] ∧
      mkdirsOf (Run d context env (World.start fs)).1.trace ≠ []) := by
  rcases Run_config_outcome d context env fs with ⟨e1, ho, hw, hc, ht, hr⟩ |
    ⟨e1, ho, hw, hc, hio, hr⟩ | ⟨ho, hw, evs, tail, ht, hok, hs⟩
  · have hio : ∀ ev ∈ (Run d context env (World.start fs)).1.trace, ev.isFileOp = true := by
      rw [ht]; intro ev hev; rw [List.mem_singleton.1 hev]; rfl
    refine ⟨?_, ?_, ?_⟩
    · intro h
      rw [ho] at h
      simp only [List.mem_singleton, Prod.mk.injEq] at h
      obtain ⟨-, rfl⟩ := h
      exact ⟨hr, mkdirsOf_fileOp hio, commandsOf_fileOp hio, hio⟩
    · intro h; rw [hw] at h; simp at h
    · intro h; rw [hc] at h; simp at h
  · refine ⟨?_, ?_, ?_⟩
    · intro h; rw [ho] at h; simp at h
    · intro h
      rw [hw] at h
      simp only [List.mem_singleton, Prod.mk.injEq] at h
      obtain ⟨-, rfl⟩ := h
      exact ⟨hr, mkdirsOf_fileOp hio, commandsOf_fileOp hio, hio⟩
    · intro h; rw [hc] at h; simp at h
  · refine ⟨?_, ?_, ?_⟩
    · intro h; rw [ho] at h; simp at h
    · intro h; rw [hw] at h; simp at h
    · intro _
      refine ⟨ho, hw, ?_⟩
      rw [ht, mkdirsOf_append, mkdirsOf_fileOp hok.fileOp]
      exact hs.mkdirs_ne_nil

/-- Witness for C9: the example with a failing open, with a failing write, and with a
failing `Close`. -/
theorem config_write_failure_stops_witness :
    (Run sampleAction sampleContext openFaults.env (World.start emptyFS)).2
      = some "Couldn't open pacman config: permission denied" ∧
    commandsOf (Run sampleAction sampleContext writeFaults.env (World.start emptyFS)).1.trace
      = [] ∧
    mkdirsOf (Run sampleAction sampleContext closeFaults.env (World.start emptyFS)).1.trace
      ≠ [] :=
  ⟨((config_write_failure_stops sampleAction sampleContext openFaults.env emptyFS
      "/scratch/pacman.conf" "permission denied").1 (by decide)).1,
   ((config_write_failure_stops sampleAction sampleContext writeFaults.env emptyFS
      "/scratch/pacman.conf" "no space left on device").2.1 (by decide)).2.2.1,
   ((config_write_failure_stops sampleAction sampleContext closeFaults.env emptyFS
      "/scratch/pacman.conf" "input/output error").2.2 (by decide)).2.2⟩

/-- Counterexample to C9 as stated: in the example, with a `Close` that fails and
nothing else failing, `Run` returns `nil` and all three external processes
are started. -/
theorem close_failure_is_ignored :
    failedCloses (Run sampleAction sampleContext closeFaults.env (World.start emptyFS)).1.trace
      = [("/scratch/pacman.conf", "input/output error")] ∧
    (Run sampleAction sampleContext closeFaults.env (World.start emptyFS)).2 = none ∧
    commandsOf (Run sampleAction sampleContext closeFaults.env (World.start emptyFS)).1.trace
      = [["pacman-key", "--nocolor", "--config", "/scratch/pacman.conf", "--init"],
         ["pacman-key", "--nocolor", "--config", "/scratch/pacman.conf", "--populate"],
         ["pacstrap", "-GM", "-C", "/scratch/pacman.conf", "/scratch/root", "base", "linux"]] := by
  decide

theorem foldr_sections (R : List Repository) :
    (R.map specRepoSection).foldr (· ++ ·) "" = specRepoSections R := by
  induction R with
  | nil => rfl
  | cons r rs ih => simp only [List.map_cons, List.foldr_cons, ih, specRepoSections]

/-- C1. When the open and every write succeed, the strings `Run` writes are all written
to `scratchDir/pacman.conf` and are, in order, the options section for the
target root and then one section per repository, in list order: `|R| + 1`
writes whose concatenation is the options template followed by the
repository sections. -/
theorem synthesized_text (d : PacstrapAction) (context : DebosContext) (env : Env) (fs : FS)
    (ho : failedOpens (Run d context env (World.start fs)).1.trace = [])
    (hw : failedWrites (Run d context env (World.start fs)).1.trace = []) :
    writesTo (configPath context) (Run d context env (World.start fs)).1.trace
      = specOptionsSection context.Rootdir :: d.Repositories.map specRepoSection ∧
    (∀ n off s r, Event.writeString n off s r ∈ (Run d context env (World.start fs)).1.trace →
      n = configPath context) ∧
    (writesTo (configPath context) (Run d context env (World.start fs)).1.trace).length
      = d.Repositories.length + 1 ∧
    (writesTo (configPath context) (Run d context env (World.start fs)).1.trace).foldr
        (· ++ ·) ""
      = specConfigText context.Rootdir d.Repositories := by
  have key : writesTo (configPath context) (Run d context env (World.start fs)).1.trace
        = specOptionsSection context.Rootdir :: d.Repositories.map specRepoSection ∧
      (∀ n off s r,
        Event.writeString n off s r ∈ (Run d context env (World.start fs)).1.trace →
        n = configPath context) := by
    rcases Run_config_outcome d context env fs with ⟨e1, ho1, -⟩ | ⟨e1, -, hw1, -⟩ |
      ⟨-, -, evs, tail, ht, hok, hs⟩
    · rw [ho] at ho1; simp at ho1
    · rw [hw] at hw1; simp at hw1
    · obtain ⟨-, -, q3, q4⟩ := hok.reads
      obtain ⟨-, -, -, r4, r5⟩ := noFileOp_reads hs.noFileOp (configPath context)
      rw [ht]
      refine ⟨?_, ?_⟩
      · have : writesTo (configPath context) (evs ++ tail)
            = writesTo (configPath context) evs ++ writesTo (configPath context) tail := by
          simp [writesTo]
        rw [this, q3, r4, List.append_nil]
      · intro n off s r hmem
        rcases List.mem_append.1 hmem with h | h
        · exact q4 n off s r h
        · exact absurd h (r5 n off s r)
  refine ⟨key.1, key.2, ?_, ?_⟩
  · rw [key.1]; simp
  · rw [key.1, List.foldr_cons, foldr_sections]; rfl

set_option maxRecDepth 100000 in
/-- Witness for C1: the text written for the specification's example. -/
theorem synthesized_text_witness :
    writesTo "/scratch/pacman.conf"
        (Run sampleAction sampleContext noFaults.env (World.start emptyFS)).1.trace
      = ["\n[options]\nRootDir  = /scratch/root\nCacheDir = /scratch/root/var/cache/pacman/pkg/\nGPGDir   = /scratch/root/etc/pacman.d/gnupg/\nHookDir  = /scratch/root/etc/pacman.d/hooks/\nHoldPkg  = pacman glibc\nArchitecture = auto\nColor\nCheckSpace\nSigLevel = Required DatabaseOptional TrustAll\n",
         "\n\n[core]\nServer = http://mirror.example/core\n"] :=
  (synthesized_text sampleAction sampleContext noFaults.env emptyFS
    (by decide) (by decide)).1

/-- C7, as the code has it.  A run that returns `nil` has called `os.Remove` exactly
once, on `scratchDir/pacman.conf`, as its last operation; if that call
succeeded the file does not exist afterwards.  (A failing `os.Remove` is
ignored.) -/
theorem config_removed_on_success (d : PacstrapAction) (context : DebosContext) (env : Env)
    (fs : FS) (h : (Run d context env (World.start fs)).2 = none) :
    removesOf (Run d context env (World.start fs)).1.trace = [configPath context] ∧
    (∃ pre r, (Run d context env (World.start fs)).1.trace
      = pre ++ [Event.remove (configPath context) r]) ∧
    (failedRemoves (Run d context env (World.start fs)).1.trace = [] →
      (Run d context env (World.start fs)).1.fs.files (configPath context) = none) := by
  refine ⟨?_, ?_, ?_⟩
  · rcases Run_commands d context env fs with ⟨-, -, -, hr⟩ | ⟨e, -, -, -, -, hr⟩ |
      ⟨e, -, -, -, -, hr⟩ | ⟨e, rest, -, -, -, -, -, hr⟩ | ⟨-, -, hrm, -⟩
    · exact absurd h hr
    · rw [h] at hr; exact Option.noConfusion hr
    · rw [h] at hr; exact Option.noConfusion hr
    · rw [h] at hr; exact Option.noConfusion hr
    · exact hrm
  · rcases Run_commands d context env fs with ⟨-, -, -, hr⟩ | ⟨e, -, -, -, -, hr⟩ |
      ⟨e, -, -, -, -, hr⟩ | ⟨e, rest, -, -, -, -, -, hr⟩ | ⟨-, -, -, -, hlast, -⟩
    · exact absurd h hr
    · rw [h] at hr; exact Option.noConfusion hr
    · rw [h] at hr; exact Option.noConfusion hr
    · rw [h] at hr; exact Option.noConfusion hr
    · exact hlast
  · revert h
    apply Run_courses d context env fs
      (fun r => r.2 = none → failedRemoves r.1.trace = [] →
        r.1.fs.files (configPath context) = none)
    · intro w1 x _ _ hn; exact Option.noConfusion hn
    · intro w1 w2 x tail _ _ _ _ _ hn; exact Option.noConfusion hn
    · intro w1 w2 w3 e _ _ _ _ _ _ hn; exact Option.noConfusion hn
    · intro w1 w2 w3 w4 x tail _ _ _ _ _ _ _ hn; exact Option.noConfusion hn
    · intro w1 w2 w3 w4 w5 x wa wb r _ _ _ _ _ _ _ _ _ _ _ hn; exact Option.noConfusion hn
    · intro w1 w2 w3 w4 w5 wa _ _ _ _ _ hok ht _ _ _ _ hfr
      dsimp only at hfr ⊢
      obtain ⟨-, hrm, -⟩ := osRemove_spec env (configPath context) w5
      apply hrm
      rw [ht, failedRemoves_append, failedRemoves_append, (fileOp_reads hok.fileOp).2.2.2,
        (layoutEvents_reads d context (configPath context)).2.1] at hfr
      cases hr : env.remove w5 (configPath context) with
      | none => rfl
      | some e => rw [hr] at hfr; simp [failedRemoves] at hfr

set_option maxRecDepth 100000 in
/-- Witness for C7: in the example, with nothing failing, the configuration file is
gone after the run. -/
theorem config_removed_on_success_witness :
    (Run sampleAction sampleContext noFaults.env (World.start emptyFS)).2 = none ∧
    (Run sampleAction sampleContext noFaults.env (World.start emptyFS)).1.fs.files
      "/scratch/pacman.conf" = none :=
  ⟨by decide,
   (config_removed_on_success sampleAction sampleContext noFaults.env emptyFS
      (by decide)).2.2 (by decide)⟩

set_option maxRecDepth 100000 in
/-- Counterexample to C7 as stated: in the example, with an `os.Remove` that fails and
nothing else failing, `Run` returns `nil` and the configuration file is
still there. -/
theorem failed_remove_leaves_config :
    (Run sampleAction sampleContext removeFaults.env (World.start emptyFS)).2 = none ∧
    (Run sampleAction sampleContext removeFaults.env (World.start emptyFS)).1.fs.files
      "/scratch/pacman.conf" = some (specConfigText "/scratch/root" [coreRepo]) := by
  decide

/-- C8, as the code has it.  The override is copied after the layout is created.  If
the copy fails with `e`, `Run` returns the config-copy error wrapping `e`;
both directories `var/lib/pacman` and `etc/pacman.d/gnupg` have been created
under the target root by this run, successfully, and exist; no external
process is started and nothing is removed. -/
theorem copy_failure_after_layout (d : PacstrapAction) (context : DebosContext) (env : Env)
    (fs : FS) (src dst : String) (e : GoError)
    (h : (src, dst, e) ∈ failedCopies (Run d context env (World.start fs)).1.trace) :
    (Run d context env (World.start fs)).2 = some ("Couldn't copy pacman config: " ++ e) ∧
    src = pathJoin [context.RecipeDir, d.Config] ∧ dst = configPath context ∧
    mkdirsOf (Run d context env (World.start fs)).1.trace =
      [pathJoin [context.Rootdir, "var", "lib", "pacman"],
       pathJoin [context.Rootdir, "etc", "pacman.d", "gnupg"]] ∧
    failedMkdirs (Run d context env (World.start fs)).1.trace = [] ∧
    (Run d context env (World.start fs)).1.fs.dirs
      (pathJoin [context.Rootdir, "var", "lib", "pacman"]) = true ∧
    (Run d context env (World.start fs)).1.fs.dirs
      (pathJoin [context.Rootdir, "etc", "pacman.d", "gnupg"]) = true ∧
    commandsOf (Run d context env (World.start fs)).1.trace = [] ∧
    removesOf (Run d context env (World.start fs)).1.trace = [] := by
  revert h
  apply Run_courses d context env fs
    (fun r => (src, dst, e) ∈ failedCopies r.1.trace →
      r.2 = some ("Couldn't copy pacman config: " ++ e) ∧
      src = pathJoin [context.RecipeDir, d.Config] ∧ dst = configPath context ∧
      mkdirsOf r.1.trace =
        [pathJoin [context.Rootdir, "var", "lib", "pacman"],
         pathJoin [context.Rootdir, "etc", "pacman.d", "gnupg"]] ∧
      failedMkdirs r.1.trace = [] ∧
      r.1.fs.dirs (pathJoin [context.Rootdir, "var", "lib", "pacman"]) = true ∧
      r.1.fs.dirs (pathJoin [context.Rootdir, "etc", "pacman.d", "gnupg"]) = true ∧
      commandsOf r.1.trace = [] ∧ removesOf r.1.trace = [])
  · intro w1 x _ hf h
    dsimp only at h
    rw [(fileOp_reads hf.onlyFileOp).2.1] at h
    simp at h
  · intro w1 w2 x tail _ _ hok ht hs h
    dsimp only at h
    rw [ht, failedCopies_append, (fileOp_reads hok.fileOp).2.1] at h
    rcases hs with ⟨e1, rfl, -⟩ | ⟨e1, rfl, -⟩ <;> simp [failedCopies] at h
  · intro w1 w2 w3 e1 _ e2 e3 hok ht hc h
    dsimp only at h ⊢
    obtain ⟨-, -, hd1, hd2⟩ := createLayout_ok e2
    obtain ⟨-, hfs, -⟩ := copyConfig_fail e3
    rw [ht, failedCopies_append, (fileOp_reads hok.fileOp).2.1] at h
    simp only [failedCopies, List.filterMap_cons, List.filterMap_nil, List.nil_append,
      List.mem_singleton, Prod.mk.injEq] at h
    obtain ⟨rfl, rfl, rfl⟩ := h
    refine ⟨rfl, rfl, rfl, ?_, ?_, by rw [hfs]; exact hd1, by rw [hfs]; exact hd2, ?_, ?_⟩
    · rw [ht, mkdirsOf_append, mkdirsOf_fileOp hok.fileOp]; simp [mkdirsOf]
    · rw [ht, failedMkdirs_append, (fileOp_reads hok.fileOp).1]; simp [failedMkdirs]
    · rw [ht, commandsOf_append, commandsOf_fileOp hok.fileOp]; simp [commandsOf]
    · rw [ht, removesOf_append, removesOf_fileOp hok.fileOp]; simp [removesOf]
  · intro w1 w2 w3 w4 x tail _ _ _ _ hok ht hs h
    dsimp only at h
    rw [ht, failedCopies_append, (fileOp_reads hok.fileOp).2.1] at h
    rcases hs with ⟨e1, rfl, -⟩ | ⟨e1, wa, rfl, -⟩
    · rw [failedCopies_append, (layoutEvents_reads d context "").1] at h
      simp [failedCopies] at h
    · rw [failedCopies_append, (layoutEvents_reads d context "").1] at h
      simp [failedCopies] at h
  · intro w1 w2 w3 w4 w5 x wa wb r _ _ _ _ _ hok ht _ _ _ _ h
    dsimp only at h
    rw [ht, failedCopies_append, (fileOp_reads hok.fileOp).2.1, failedCopies_append,
      (layoutEvents_reads d context "").1] at h
    simp [failedCopies] at h
  · intro w1 w2 w3 w4 w5 wa _ _ _ _ _ hok ht _ _ _ h
    dsimp only at h
    rw [ht, failedCopies_append, (fileOp_reads hok.fileOp).2.1, failedCopies_append,
      (layoutEvents_reads d context "").1] at h
    simp [failedCopies] at h

/-- Witness for C8: the example with an override whose copy fails. -/
theorem copy_failure_after_layout_witness :
    (Run overrideAction sampleContext copyFaults.env (World.start overrideFS)).2
      = some "Couldn't copy pacman config: permission denied" ∧
    commandsOf (Run overrideAction sampleContext copyFaults.env
      (World.start overrideFS)).1.trace = [] :=
  ⟨(copy_failure_after_layout overrideAction sampleContext copyFaults.env overrideFS
      "/recipes/pacman.conf" "/scratch/pacman.conf" "permission denied" (by decide)).1,
   (copy_failure_after_layout overrideAction sampleContext copyFaults.env overrideFS
      "/recipes/pacman.conf" "/scratch/pacman.conf" "permission denied"
      (by decide)).2.2.2.2.2.2.2.1⟩

/-- Counterexample to C8 as stated: in the example with an override whose copy fails,
both directories have been created under the target root by the run, before
the copy was attempted. -/
theorem layout_created_before_failed_copy :
    failedCopies (Run overrideAction sampleContext copyFaults.env
        (World.start overrideFS)).1.trace
      = [("/recipes/pacman.conf", "/scratch/pacman.conf", "permission denied")] ∧
    mkdirsOf (Run overrideAction sampleContext copyFaults.env (World.start overrideFS)).1.trace
      = ["/scratch/root/var/lib/pacman", "/scratch/root/etc/pacman.d/gnupg"] ∧
    overrideFS.dirs "/scratch/root/var/lib/pacman" = false ∧
    overrideFS.dirs "/scratch/root/etc/pacman.d/gnupg" = false ∧
    (Run overrideAction sampleContext copyFaults.env (World.start overrideFS)).1.fs.dirs
      "/scratch/root/var/lib/pacman" = true ∧
    (Run overrideAction sampleContext copyFaults.env (World.start overrideFS)).1.fs.dirs
      "/scratch/root/etc/pacman.d/gnupg" = true := by
  decide

theorem copy_facts {d : PacstrapAction} {context : DebosContext} {env : Env} {fs : FS}
    {w1 w2 w3 : World} (e1 : writeConfig d context env (World.start fs) = (w1, none))
    (e2 : createLayout context env w1 = (w2, none))
    (e3 : copyConfig d context env w2 = (w3, none)) (hc : d.Config.length > 0) :
    worldAtCopy d context env fs = w2 ∧
    ∃ c, w2.fs.files (pathJoin [context.RecipeDir, d.Config]) = some c ∧
      w3.fs.files (configPath context) = some c ∧
      (pathJoin [context.RecipeDir, d.Config] ≠ configPath context →
        fs.files (pathJoin [context.RecipeDir, d.Config]) = some c) := by
  refine ⟨by unfold worldAtCopy; rw [e1]; dsimp only; rw [e2], ?_⟩
  rcases copyConfig_ok e3 with ⟨h0, -⟩ | ⟨-, c, hsrc, hfs, -⟩
  · omega
  · refine ⟨c, hsrc, by rw [hfs]; simp [FS.setFile], ?_⟩
    intro hne
    obtain ⟨-, hfiles, -, -⟩ := createLayout_ok e2
    have hframe := (writeConfig_frame d context env (World.start fs)).2 _ hne
    rw [e1] at hframe
    rw [← hsrc, hfiles]
    exact hframe.symm

theorem okCopies_layout_mem {d : PacstrapAction} {context : DebosContext} {p : String × String}
    (h : p ∈ okCopies (layoutEvents d context)) : d.Config.length > 0 := by
  rw [(layoutEvents_reads d context "").2.2.2.2] at h
  by_cases hc : d.Config.length > 0
  · exact hc
  · rw [if_neg hc] at h; simp at h

/-- What the external processes see after a successful copy of the override, in
terms of the file system on which `debos.CopyFile` is called: the first
process starts on the content the override file had at that moment, and so
do the later ones when external processes leave `scratchDir/pacman.conf`
alone.  When the override is another file than `scratchDir/pacman.conf`,
that content is the one the override held before the run. -/
theorem override_seen_at_copy (d : PacstrapAction) (context : DebosContext) (env : Env)
    (fs : FS)
    (hcopy : (pathJoin [context.RecipeDir, d.Config], configPath context)
      ∈ okCopies (Run d context env (World.start fs)).1.trace) :
    (worldAtCopy d context env fs).fs.files (pathJoin [context.RecipeDir, d.Config]) ≠ none ∧
    (configSeen (configPath context) (Run d context env (World.start fs)).1.trace).head?
      = some ((worldAtCopy d context env fs).fs.files (pathJoin [context.RecipeDir, d.Config])) ∧
    (env.keepsFile (configPath context) →
      ∀ c ∈ configSeen (configPath context) (Run d context env (World.start fs)).1.trace,
        c = (worldAtCopy d context env fs).fs.files (pathJoin [context.RecipeDir, d.Config])) ∧
    (pathJoin [context.RecipeDir, d.Config] ≠ configPath context →
      (worldAtCopy d context env fs).fs.files (pathJoin [context.RecipeDir, d.Config])
        = fs.files (pathJoin [context.RecipeDir, d.Config])) := by
  revert hcopy
  apply Run_courses d context env fs
    (fun r => (pathJoin [context.RecipeDir, d.Config], configPath context)
        ∈ okCopies r.1.trace →
      (worldAtCopy d context env fs).fs.files (pathJoin [context.RecipeDir, d.Config]) ≠ none ∧
      (configSeen (configPath context) r.1.trace).head?
        = some ((worldAtCopy d context env fs).fs.files
            (pathJoin [context.RecipeDir, d.Config])) ∧
      (env.keepsFile (configPath context) →
        ∀ c ∈ configSeen (configPath context) r.1.trace,
          c = (worldAtCopy d context env fs).fs.files
            (pathJoin [context.RecipeDir, d.Config])) ∧
      (pathJoin [context.RecipeDir, d.Config] ≠ configPath context →
        (worldAtCopy d context env fs).fs.files (pathJoin [context.RecipeDir, d.Config])
          = fs.files (pathJoin [context.RecipeDir, d.Config])))
  · intro w1 x _ hf h
    dsimp only at h
    rw [(fileOp_reads hf.onlyFileOp).2.2.1] at h
    simp at h
  · intro w1 w2 x tail _ _ hok ht hs h
    dsimp only at h
    rw [ht, okCopies_append, (fileOp_reads hok.fileOp).2.2.1] at h
    rcases hs with ⟨e1, rfl, -⟩ | ⟨e1, rfl, -⟩ <;> simp [okCopies] at h
  · intro w1 w2 w3 e1 _ _ _ hok ht _ h
    dsimp only at h
    rw [ht, okCopies_append, (fileOp_reads hok.fileOp).2.2.1] at h
    simp [okCopies] at h
  · intro w1 w2 w3 w4 x tail e1 e2 e3 _ hok ht hs h
    dsimp only at h ⊢
    rw [ht, okCopies_append, (fileOp_reads hok.fileOp).2.2.1, List.nil_append] at h
    have hseen : configSeen (configPath context) w4.trace
        = configSeen (configPath context) tail := by
      rw [ht, configSeen_append, configSeen_fileOp _ hok.fileOp, List.nil_append]
    rw [hseen]
    rcases hs with ⟨e0, rfl, -⟩ | ⟨e0, wa, rfl, -, hwa⟩
    · rw [okCopies_append] at h
      have hc : d.Config.length > 0 := by
        rcases List.mem_append.1 h with h | h
        · exact okCopies_layout_mem h
        · simp [okCopies] at h
      obtain ⟨hw, c, hsrc, hcfg, hinit⟩ := copy_facts e1 e2 e3 hc
      rw [hw, configSeen_append, (layoutEvents_reads d context (configPath context)).2.2.2.1,
        hsrc]
      refine ⟨by simp, by simp [configSeen, hcfg], ?_, fun hne => (hinit hne).symm⟩
      intro _ c1 hc1
      simp only [configSeen, List.filterMap_cons, List.filterMap_nil, List.nil_append,
        List.mem_singleton] at hc1
      rw [hc1, hcfg]
    · rw [okCopies_append] at h
      have hc : d.Config.length > 0 := by
        rcases List.mem_append.1 h with h | h
        · exact okCopies_layout_mem h
        · simp [okCopies] at h
      obtain ⟨hw, c, hsrc, hcfg, hinit⟩ := copy_facts e1 e2 e3 hc
      rw [hw, configSeen_append, (layoutEvents_reads d context (configPath context)).2.2.2.1,
        hsrc]
      refine ⟨by simp, by simp [configSeen, hcfg], ?_, fun hne => (hinit hne).symm⟩
      intro hkeep c1 hc1
      have hwa2 : wa.fs.files (configPath context) = some c := by
        rw [hwa, hkeep, hcfg]
      simp only [configSeen, List.filterMap_cons, List.filterMap_nil, List.nil_append,
        List.mem_cons, List.not_mem_nil, or_false] at hc1
      rcases hc1 with rfl | rfl
      · exact hcfg
      · exact hwa2
  · intro w1 w2 w3 w4 w5 x wa wb r e1 e2 e3 _ _ hok ht hwa hw4 hwb _ h
    dsimp only at h ⊢
    rw [ht, okCopies_append, (fileOp_reads hok.fileOp).2.2.1, List.nil_append,
      okCopies_append] at h
    have hc : d.Config.length > 0 := by
      rcases List.mem_append.1 h with h | h
      · exact okCopies_layout_mem h
      · simp [okCopies] at h
    obtain ⟨hw, c, hsrc, hcfg, hinit⟩ := copy_facts e1 e2 e3 hc
    rw [ht, configSeen_append, configSeen_fileOp _ hok.fileOp, List.nil_append,
      configSeen_append, (layoutEvents_reads d context (configPath context)).2.2.2.1,
      hw, hsrc]
    refine ⟨by simp, by simp [configSeen, hcfg], ?_, fun hne => (hinit hne).symm⟩
    intro hkeep c1 hc1
    have hwa2 : wa.fs.files (configPath context) = some c := by
      rw [hwa, hkeep, hcfg]
    have hw42 : w4.fs.files (configPath context) = some c := by
      rw [hw4, hkeep, hwa2]
    have hwb2 : wb.fs.files (configPath context) = some c := by
      rw [hwb, hkeep, hw42]
    simp only [configSeen, List.filterMap_cons, List.filterMap_nil, List.nil_append,
      List.mem_cons, List.not_mem_nil, or_false] at hc1
    rcases hc1 with rfl | rfl | rfl | rfl
    · exact hcfg
    · exact hwa2
    · exact hw42
    · exact hwb2
  · intro w1 w2 w3 w4 w5 wa e1 e2 e3 _ _ hok ht hwa hw4 _ h
    dsimp only at h ⊢
    rw [ht, okCopies_append, (fileOp_reads hok.fileOp).2.2.1, List.nil_append,
      okCopies_append] at h
    have hc : d.Config.length > 0 := by
      rcases List.mem_append.1 h with h | h
      · exact okCopies_layout_mem h
      · simp [okCopies] at h
    obtain ⟨hw, c, hsrc, hcfg, hinit⟩ := copy_facts e1 e2 e3 hc
    rw [ht, configSeen_append, configSeen_fileOp _ hok.fileOp, List.nil_append,
      configSeen_append, (layoutEvents_reads d context (configPath context)).2.2.2.1,
      hw, hsrc]
    refine ⟨by simp, by simp [configSeen, hcfg], ?_, fun hne => (hinit hne).symm⟩
    intro hkeep c1 hc1
    have hwa2 : wa.fs.files (configPath context) = some c := by
      rw [hwa, hkeep, hcfg]
    have hw42 : w4.fs.files (configPath context) = some c := by
      rw [hw4, hkeep, hwa2]
    simp only [configSeen, List.filterMap_cons, List.filterMap_nil, List.nil_append,
      List.mem_cons, List.not_mem_nil, or_false] at hc1
    rcases hc1 with rfl | rfl | rfl
    · exact hcfg
    · exact hwa2
    · exact hw42

theorem TailShape.okCopies_mem {d : PacstrapAction} {context : DebosContext}
    {tail : List Event} {res : Option GoError} (h : TailShape d context tail res) :
    ∀ p ∈ okCopies tail, p ∈ okCopies (layoutEvents d context) := by
  intro p hp
  cases h with
  | mkdirLib e => simp [okCopies] at hp
  | mkdirGnupg e => simp [okCopies] at hp
  | copy e hc => simp [okCopies] at hp
  | init b e =>
    rw [okCopies_append] at hp
    simpa [okCopies] using hp
  | populate b1 b2 e =>
    rw [okCopies_append] at hp
    simpa [okCopies] using hp
  | pacstrap b1 b2 b3 b4 e r =>
    rw [okCopies_append] at hp
    simpa [okCopies] using hp
  | done b1 b2 b3 r =>
    rw [okCopies_append] at hp
    simpa [okCopies] using hp

/-- C3, as the code has it.  When the override `recipeDir/<override>` is a file other
than `scratchDir/pacman.conf` itself and its copy succeeds, the override
file existed before the run, and `pacman-key --init` starts on a
`scratchDir/pacman.conf` whose content is the content the override file had
before the run, whatever the repositories and the packages: nothing of the
synthesized text is in it.  The later processes (population, installer)
start on the same content, external processes leaving that file alone. -/
theorem override_config_is_used (d : PacstrapAction) (context : DebosContext) (env : Env)
    (fs : FS)
    (hne : pathJoin [context.RecipeDir, d.Config] ≠ configPath context)
    (hcopy : (pathJoin [context.RecipeDir, d.Config], configPath context)
      ∈ okCopies (Run d context env (World.start fs)).1.trace) :
    d.Config ≠ "" ∧
    fs.files (pathJoin [context.RecipeDir, d.Config]) ≠ none ∧
    (configSeen (configPath context) (Run d context env (World.start fs)).1.trace).head?
      = some (fs.files (pathJoin [context.RecipeDir, d.Config])) ∧
    (env.keepsFile (configPath context) →
      ∀ c ∈ configSeen (configPath context) (Run d context env (World.start fs)).1.trace,
        c = fs.files (pathJoin [context.RecipeDir, d.Config])) := by
  obtain ⟨h1, h2, h3, h4⟩ := override_seen_at_copy d context env fs hcopy
  have h5 := h4 hne
  rw [h5] at h1 h2 h3
  refine ⟨?_, h1, h2, h3⟩
  intro hempty
  have hmem : (pathJoin [context.RecipeDir, d.Config], configPath context)
      ∈ okCopies (layoutEvents d context) := by
    rw [(layoutEvents_reads d context "").2.2.2.2]
    rcases Run_config_outcome d context env fs with ⟨e1, -, -, -, ht, -⟩ |
      ⟨e1, -, -, -, hio, -⟩ | ⟨-, -, evs, tail, ht, hok, hs⟩
    · rw [ht] at hcopy; simp [okCopies] at hcopy
    · rw [(fileOp_reads hio).2.2.1] at hcopy; simp at hcopy
    · rw [ht, okCopies_append, (fileOp_reads hok.fileOp).2.2.1, List.nil_append] at hcopy
      rw [← (layoutEvents_reads d context "").2.2.2.2]
      exact hs.okCopies_mem _ hcopy
  have hlen := okCopies_layout_mem hmem
  rw [hempty] at hlen
  simp at hlen

/-- Witness for C3: in the example with an override, every external process starts on
a configuration file holding the override's content. -/
theorem override_config_is_used_witness :
    ("/recipes/pacman.conf", "/scratch/pacman.conf") ∈ okCopies
      (Run overrideAction sampleContext noFaults.env (World.start overrideFS)).1.trace ∧
    ∀ c ∈ configSeen "/scratch/pacman.conf"
        (Run overrideAction sampleContext noFaults.env (World.start overrideFS)).1.trace,
      c = some "[options]\nArchitecture = x86_64\n" :=
  ⟨by decide,
   (override_config_is_used overrideAction sampleContext noFaults.env overrideFS
      (by decide) (by decide)).2.2.2 (fun _ _ _ => rfl)⟩

set_option maxRecDepth 100000 in
/-- Counterexample to C3 as stated: the override path `../scratch/pacman.conf`, taken
from the recipe directory `/recipes`, is `/scratch/pacman.conf` itself.  No
such file exists before the run; the synthesis creates it, the copy of the
file onto itself succeeds, the run returns `nil`, and all three external
processes start on the synthesized text. -/
theorem override_onto_itself_keeps_synthesized_text :
    aliasAction.Config ≠ "" ∧
    pathJoin [sampleContext.RecipeDir, aliasAction.Config] = "/scratch/pacman.conf" ∧
    emptyFS.files "/scratch/pacman.conf" = none ∧
    okCopies (Run aliasAction sampleContext noFaults.env (World.start emptyFS)).1.trace
      = [("/scratch/pacman.conf", "/scratch/pacman.conf")] ∧
    (Run aliasAction sampleContext noFaults.env (World.start emptyFS)).2 = none ∧
    configSeen "/scratch/pacman.conf"
        (Run aliasAction sampleContext noFaults.env (World.start emptyFS)).1.trace
      = [some (specConfigText "/scratch/root" [coreRepo]),
         some (specConfigText "/scratch/root" [coreRepo]),
         some (specConfigText "/scratch/root" [coreRepo])] := by
  decide

/-- An external process that rewrites the configuration file is what the later
processes start on: with a `pacman-key --init` that empties the file, the
population and the installer of the example with an override start on an
empty file, not on the override's content. -/
theorem rewritten_config_is_seen :
    okCopies (Run overrideAction sampleContext rewritingEnv (World.start overrideFS)).1.trace
      = [("/recipes/pacman.conf", "/scratch/pacman.conf")] ∧
    configSeen "/scratch/pacman.conf"
        (Run overrideAction sampleContext rewritingEnv (World.start overrideFS)).1.trace
      = [some "[options]\nArchitecture = x86_64\n", some "", some ""] := by
  decide

/-- A synthesis into a scratch directory that holds no `pacman.conf` leaves exactly the
synthesized text in the file. -/
theorem writeConfig_fresh (d : PacstrapAction) (context : DebosContext) (env : Env) (fs : FS)
    (hnew : fs.files (configPath context) = none)
    (h : (writeConfig d context env (World.start fs)).2 = none) :
    (writeConfig d context env (World.start fs)).1.fs.files (configPath context)
      = some (specConfigText context.Rootdir d.Repositories) := by
  obtain ⟨mid, cl, -, -, -, hc⟩ := @writeConfig_ok d context env (World.start fs) h
  rw [hc]
  have : (World.start fs).fs.files (configPath context) = none := hnew
  rw [this]
  simp

set_option maxRecDepth 100000 in
/-- C10 fails on the code.  The scratch directory holds the configuration an earlier
run wrote for the repositories `core` and `extra`; the action now lists
`core` only.  The file is opened without truncation, so after the synthesis
it still ends with the section of `extra`: its content is not the
synthesized text, and that is the file every external process is started
on. -/
theorem stale_tail_survives_synthesis :
    (writeConfig sampleAction sampleContext noFaults.env (World.start staleFS)).2 = none ∧
    (writeConfig sampleAction sampleContext noFaults.env (World.start staleFS)).1.fs.files
        "/scratch/pacman.conf"
      = some (specConfigText "/scratch/root" [coreRepo] ++ specRepoSection extraRepo) ∧
    specConfigText "/scratch/root" [coreRepo] ++ specRepoSection extraRepo
      ≠ specConfigText "/scratch/root" [coreRepo] ∧
    configSeen "/scratch/pacman.conf"
        (Run sampleAction sampleContext noFaults.env (World.start staleFS)).1.trace
      = [some (specConfigText "/scratch/root" [coreRepo] ++ specRepoSection extraRepo),
         some (specConfigText "/scratch/root" [coreRepo] ++ specRepoSection extraRepo),
         some (specConfigText "/scratch/root" [coreRepo] ++ specRepoSection extraRepo)] := by
  decide

end Debos
